import Mathlib

/-!
# T-SKID stride prefetcher (`prefetcher/T_SKID/t_skid.cc`)

A shallow embedding of `TSKID_Prefetcher` and of the host hooks that drive it.

* `uint64_t` values are natural numbers, every `uint64_t` operation being reduced modulo
  `2^64`; `int64_t` values are integers wrapped into `[-2^63, 2^63)` (`toInt64`), so that
  every arithmetic step of the source is the two's-complement one.
  Signed overflow of `int64_t`, undefined behaviour in C++, is thereby read as wrap-around.
* `int` values (`confidence`, `degree`) are integers: the source only adds or subtracts one
  to them, which overflows for no value the engine ever stores.
* The host (`CACHE`) is a record of what the engine reads from it during one call, and a
  call that may send a request to the host returns the list of requests it sent.
* `assert` is a failure: `advance_lookahead` returns `none` when the assertion fails.
-/

namespace TSKID

/-! ## Machine integers -/

/-- Conversion to `int64_t` (two's complement wrap into `[-2^63, 2^63)`). -/
def toInt64 (x : Int) : Int := (x + 2 ^ 63) % 2 ^ 64 - 2 ^ 63

/-- Conversion to `uint64_t` (reduction modulo `2^64`). -/
def toUInt64 (x : Int) : Nat := (x % 2 ^ 64).toNat

/-! ## Constants -/

abbrev TRACKER_SETS : Nat := 256
abbrev TRACKER_WAYS : Nat := 4
def PREFETCH_DEGREE : Int := 3
def CONFIDENCE_THRESHOLD : Int := 2
def PREFETCH_DELAY : Nat := 30

/-- Modelled from the spec: the host constant `LOG2_BLOCK_SIZE` (log2 of the cache-line
size in bytes) is declared in a header that is not among the sources; 64-byte lines. -/
def LOG2_BLOCK_SIZE : Nat := 6

/-- Modelled from the spec: the host constant `BLOCK_SIZE` (cache-line size in bytes) is
declared in a header that is not among the sources. -/
def BLOCK_SIZE : Nat := 2 ^ LOG2_BLOCK_SIZE

/-- Modelled from the spec: the host constant `LOG2_PAGE_SIZE` (log2 of the page size in
bytes) is declared in a header that is not among the sources; 4 KiB pages. -/
def LOG2_PAGE_SIZE : Nat := 12

/-! ## Data model -/

structure tracker_entry where
  ip : Nat := 0
  last_cl_addr : Nat := 0
  last_stride : Int := 0
  confidence : Int := 0
deriving DecidableEq, Repr

def tracker_entry.index (e : tracker_entry) : Nat := e.ip

def tracker_entry.tag (e : tracker_entry) : Nat := e.ip

structure lookahead_entry where
  address : Nat := 0
  stride : Int := 0
  degree : Int := 0
  issue_cycle : Nat := 0
deriving DecidableEq, Repr

/-! ## The LRU table -/

/-- Modelled from the spec: `msl/lru_table.h` is not among the sources. The table is
set-associative, `TRACKER_SETS` sets of `TRACKER_WAYS` ways, indexed and tagged by the
entry (here by `ip`), with LRU replacement. Each set is kept as its recency list, most
recently touched entry first; an empty way is an absent list element. -/
structure lru_table where
  sets : Fin TRACKER_SETS → List tracker_entry

/-- Modelled from the spec: the set an entry is indexed to (`index()` reduced to the
number of sets). -/
def lru_table.set_idx (elem : tracker_entry) : Fin TRACKER_SETS :=
  ⟨elem.index % TRACKER_SETS, Nat.mod_lt _ (by decide)⟩

/-- Modelled from the spec: the table `table{TRACKER_SETS, TRACKER_WAYS}` right after
construction, with every way empty. -/
def lru_table.empty : lru_table := ⟨fun _ => []⟩

/-- Modelled from the spec: `lru_table::check_hit`. Looks the tag of `elem` up in its set;
a hit returns a copy of the stored entry and touches it (it becomes the most recently
used entry of its set); a miss returns nothing and leaves the table as it is. -/
def lru_table.check_hit (t : lru_table) (elem : tracker_entry) :
    Option tracker_entry × lru_table :=
  let i := lru_table.set_idx elem
  match (t.sets i).find? (fun x => x.tag == elem.tag) with
  | some hit =>
    (some hit,
      ⟨Function.update t.sets i (hit :: (t.sets i).eraseP (fun x => x.tag == elem.tag))⟩)
  | none => (none, t)

/-- Modelled from the spec: `lru_table::fill`. An entry with the tag of `elem` is updated
in place; otherwise `elem` takes an empty way, or replaces the least recently used entry
of its set when no way is empty. Either way `elem` becomes the most recently used entry. -/
def lru_table.fill (t : lru_table) (elem : tracker_entry) : lru_table :=
  let i := lru_table.set_idx elem
  if (t.sets i).any (fun x => x.tag == elem.tag) then
    ⟨Function.update t.sets i (elem :: (t.sets i).eraseP (fun x => x.tag == elem.tag))⟩
  else
    ⟨Function.update t.sets i (elem :: (t.sets i).take (TRACKER_WAYS - 1))⟩

/-! ## The host -/

/-- One call of `CACHE::prefetch_line(pf_addr, fill_this_level, prefetch_metadata)`. -/
structure prefetch_request where
  pf_addr : Nat
  fill_this_level : Bool
  prefetch_metadata : Nat
deriving DecidableEq, Repr

/-- Modelled from the spec: `cache.h` is not among the sources. What the engine reads from
its host during one call: the current cycle, the virtual-addressing flag, the MSHR
occupancy ratio (the exact value of the returned floating-point number) and the answer
of the host to a prefetch request. -/
structure CACHE where
  current_cycle : Nat
  virtual_prefetch : Bool
  get_mshr_occupancy_ratio : ℚ
  prefetch_line : Nat → Bool → Nat → Bool

/-! ## The prefetcher -/

structure TSKID_Prefetcher where
  active_lookahead : Option lookahead_entry := none
  table : lru_table := lru_table.empty

/-- Final values of the locals of `initiate_lookahead`: the stride, the confidence written
to the table, and whether the assignment to `active_lookahead` was executed. -/
structure observation where
  stride : Int
  confidence : Int
  didArm : Bool
deriving DecidableEq, Repr

/-- The body of `TSKID_Prefetcher::initiate_lookahead`, returning the new engine state and
the final values of its locals (the `observe` operation of the specification). -/
def observe (self : TSKID_Prefetcher) (ip cl_addr : Nat) (cache : CACHE) :
    TSKID_Prefetcher × observation :=
  let stride : Int := 0
  let hit := self.table.check_hit ⟨ip, cl_addr, stride, 0⟩
  let table1 := hit.2
  match hit.1 with
  | some found =>
    let stride := toInt64 (toInt64 cl_addr - toInt64 found.last_cl_addr)
    let confidence :=
      if stride = found.last_stride then min (found.confidence + 1) CONFIDENCE_THRESHOLD
      else max (found.confidence - 1) 0
    if stride ≠ 0 ∧ confidence ≥ CONFIDENCE_THRESHOLD - 1 then
      (⟨some ⟨(cl_addr <<< LOG2_BLOCK_SIZE) % 2 ^ 64, stride, PREFETCH_DEGREE,
                (cache.current_cycle + PREFETCH_DELAY) % 2 ^ 64⟩,
        table1.fill ⟨ip, cl_addr, stride, confidence⟩⟩, ⟨stride, confidence, true⟩)
    else
      (⟨self.active_lookahead, table1.fill ⟨ip, cl_addr, stride, confidence⟩⟩,
        ⟨stride, confidence, false⟩)
  | none =>
    (⟨self.active_lookahead, table1.fill ⟨ip, cl_addr, stride, 0⟩⟩, ⟨stride, 0, false⟩)

/-- `TSKID_Prefetcher::initiate_lookahead`. -/
def initiate_lookahead (self : TSKID_Prefetcher) (ip cl_addr : Nat) (cache : CACHE) :
    TSKID_Prefetcher :=
  (observe self ip cl_addr cache).1

/-- `TSKID_Prefetcher::advance_lookahead`: the new engine state and the requests sent to
the host, or `none` when `assert(degree > 0)` fails. -/
def advance_lookahead (self : TSKID_Prefetcher) (cache : CACHE) :
    Option (TSKID_Prefetcher × List prefetch_request) :=
  match self.active_lookahead with
  | some la =>
    if la.issue_cycle ≤ cache.current_cycle then
      let old_pf_address := la.address
      let stride := la.stride
      let degree := la.degree
      if degree > 0 then
        let addr_delta := toInt64 (stride * BLOCK_SIZE)
        let pf_address := toUInt64 (toInt64 old_pf_address + addr_delta)
        if cache.virtual_prefetch = true ∨
            pf_address >>> LOG2_PAGE_SIZE = old_pf_address >>> LOG2_PAGE_SIZE then
          let fill_this_level := decide (cache.get_mshr_occupancy_ratio < 1 / 2)
          let success := cache.prefetch_line pf_address fill_this_level 0
          let active1 : Option lookahead_entry :=
            if success then
              some ⟨pf_address, stride, degree - 1,
                (cache.current_cycle + PREFETCH_DELAY) % 2 ^ 64⟩
            else self.active_lookahead
          let active2 : Option lookahead_entry :=
            match active1 with
            | some l => if l.degree = 0 then none else some l
            | none => none
          some (⟨active2, self.table⟩, [⟨pf_address, fill_this_level, 0⟩])
        else
          some (⟨none, self.table⟩, [])
      else none
    else some (self, [])
  | none => some (self, [])

/-! ## Host hooks (one engine instance, the one of the calling cache) -/

/-- `CACHE::prefetcher_cycle_operate`. -/
def prefetcher_cycle_operate (self : TSKID_Prefetcher) (cache : CACHE) :
    Option (TSKID_Prefetcher × List prefetch_request) :=
  advance_lookahead self cache

/-- `CACHE::prefetcher_cache_operate`: the new engine state and the returned metadata. -/
def prefetcher_cache_operate (self : TSKID_Prefetcher) (cache : CACHE) (addr ip : Nat)
    (_cache_hit : Nat) (_useful_prefetch : Bool) (_type : Nat) (metadata_in : Nat) :
    TSKID_Prefetcher × Nat :=
  (initiate_lookahead self ip (addr >>> LOG2_BLOCK_SIZE) cache, metadata_in)

/-- `CACHE::prefetcher_cache_fill`: the new engine state and the returned metadata. -/
def prefetcher_cache_fill (self : TSKID_Prefetcher) (_cache : CACHE) (_addr : Nat)
    (_set _way : Nat) (_prefetch : Nat) (_evicted_addr : Nat) (metadata_in : Nat) :
    TSKID_Prefetcher × Nat :=
  (self, metadata_in)

/-! ## Runs and auxiliary notions -/

/-- The engine state after a sequence of `initiate_lookahead` calls `(ip, cl_addr, cache)`. -/
def observe_all (self : TSKID_Prefetcher) (calls : List (Nat × Nat × CACHE)) :
    TSKID_Prefetcher :=
  calls.foldl (fun s c => initiate_lookahead s c.1 c.2.1 c.2.2) self

/-- Every stored confidence lies in `[0, CONFIDENCE_THRESHOLD]`. -/
def conf_bounded (t : lru_table) : Prop :=
  ∀ i, ∀ e ∈ t.sets i, 0 ≤ e.confidence ∧ e.confidence ≤ CONFIDENCE_THRESHOLD

/-- The stride `initiate_lookahead` computes on a hit on `found`. -/
@[irreducible]
def hit_stride (cl_addr : Nat) (found : tracker_entry) : Int :=
  toInt64 (toInt64 cl_addr - toInt64 found.last_cl_addr)

/-- The confidence `initiate_lookahead` computes on a hit on `found`. -/
@[irreducible]
def hit_confidence (cl_addr : Nat) (found : tracker_entry) : Int :=
  if hit_stride cl_addr found = found.last_stride then
    min (found.confidence + 1) CONFIDENCE_THRESHOLD
  else max (found.confidence - 1) 0

/-- The hosts seen by `n` consecutive ticks, one tick per cycle from cycle `start` on;
`host k` is the host as the engine sees it at cycle `k`. -/
def cycles (host : Nat → CACHE) : Nat → Nat → List CACHE
  | _, 0 => []
  | start, n + 1 => host start :: cycles host (start + 1) n

/-- A run of `advance_lookahead` calls, one per host of the list: the final engine state
and the requests sent, each with the cycle it was sent at; `none` when an assertion
fails on the way. -/
def tick_all (self : TSKID_Prefetcher) :
    List CACHE → Option (TSKID_Prefetcher × List (Nat × prefetch_request))
  | [] => some (self, [])
  | c :: cs =>
    match advance_lookahead self c with
    | none => none
    | some (s1, reqs) =>
      match tick_all s1 cs with
      | none => none
      | some (s2, tr) => some (s2, reqs.map (fun r => (c.current_cycle, r)) ++ tr)

/-- The tracker set an instruction pointer is indexed to. -/
def ip_set (ip : Nat) : Fin TRACKER_SETS := lru_table.set_idx ⟨ip, 0, 0, 0⟩

/-! ## Runs of host calls -/

/-- One call of a hook of the prefetcher by the host, with the host as the engine sees it
during the call and the arguments of the hook. -/
inductive host_call where
  | cache_operate (cache : CACHE) (addr ip : Nat) (cache_hit : Nat) (useful_prefetch : Bool)
      (type metadata_in : Nat)
  | cycle_operate (cache : CACHE)
  | cache_fill (cache : CACHE) (addr set way prefetch evicted_addr metadata_in : Nat)

/-- The host during a call. -/
def host_call.cache : host_call → CACHE
  | .cache_operate cache _ _ _ _ _ _ => cache
  | .cycle_operate cache => cache
  | .cache_fill cache _ _ _ _ _ _ => cache

/-- What a run records: a call of `prefetcher_cache_operate` at `cycle` that assigned
`active_lookahead`, with the byte address it stored; and a call of `prefetch_line` at
`cycle`, with its arguments and the answer of the host. -/
inductive log_entry where
  | armed (cycle : Nat) (address : Nat)
  | issued (cycle : Nat) (req : prefetch_request) (accepted : Bool)
deriving DecidableEq, Repr

/-- One host call on the engine of the calling cache: the new engine state and the log
extended by what the call did; `none` when the assertion of `advance_lookahead` fails. -/
def exec (s : TSKID_Prefetcher × List log_entry) :
    host_call → Option (TSKID_Prefetcher × List log_entry)
  | .cache_operate cache addr ip cache_hit useful_prefetch type metadata_in =>
    let st := (prefetcher_cache_operate s.1 cache addr ip cache_hit useful_prefetch type
      metadata_in).1
    if (observe s.1 ip (addr >>> LOG2_BLOCK_SIZE) cache).2.didArm = true then
      match st.active_lookahead with
      | some la => some (st, s.2 ++ [.armed cache.current_cycle la.address])
      | none => some (st, s.2)
    else some (st, s.2)
  | .cycle_operate cache =>
    match prefetcher_cycle_operate s.1 cache with
    | some (st, reqs) =>
      some (st, s.2 ++ reqs.map (fun r => .issued cache.current_cycle r
        (cache.prefetch_line r.pf_addr r.fill_this_level r.prefetch_metadata)))
    | none => none
  | .cache_fill cache addr set way prefetch evicted_addr metadata_in =>
    some ((prefetcher_cache_fill s.1 cache addr set way prefetch evicted_addr metadata_in).1,
      s.2)

/-- A run of host calls from the initial engine state (idle, empty table). -/
def run (calls : List host_call) : Option (TSKID_Prefetcher × List log_entry) :=
  calls.foldlM exec ({}, [])

/-- The degree of an active lookahead lies in `[1, PREFETCH_DEGREE]`. -/
def degree_ok (self : TSKID_Prefetcher) : Prop :=
  ∀ la, self.active_lookahead = some la → 1 ≤ la.degree ∧ la.degree ≤ PREFETCH_DEGREE

/-- Every stored line address is the line of a 64-bit byte address. -/
def table_lines_ok (t : lru_table) : Prop :=
  ∀ i, ∀ e ∈ t.sets i, e.last_cl_addr < 2 ^ 58

/-- An active lookahead has a nonzero stride, the difference of two such line addresses,
and a line-aligned 64-bit predicted address. -/
def lookahead_ok (self : TSKID_Prefetcher) : Prop :=
  ∀ la, self.active_lookahead = some la →
    la.stride ≠ 0 ∧ -2 ^ 58 < la.stride ∧ la.stride < 2 ^ 58 ∧
    la.address % BLOCK_SIZE = 0 ∧ la.address < 2 ^ 64

/-- The cycle of a log entry. -/
def log_entry.cycle : log_entry → Nat
  | .armed cycle _ => cycle
  | .issued cycle _ _ => cycle

/-- Whether a log entry sets the ready cycle of the lookahead: an arming, or a request that
the host accepted. -/
def log_entry.sets_ready : log_entry → Bool
  | .armed _ _ => true
  | .issued _ _ accepted => accepted

/-- Whether a log entry is a request. -/
def log_entry.is_issued : log_entry → Bool
  | .armed _ _ => false
  | .issued _ _ _ => true

/-- The byte address stored by the most recent arming of a log, if any. -/
def last_armed (log : List log_entry) : Option Nat :=
  log.foldl (fun acc e =>
    match e with
    | .armed _ address => some address
    | .issued _ _ _ => acc) none

/-- The observations (stride, confidence, arming) of consecutive `initiate_lookahead`
calls `(cl_addr, cache)` of one ip. -/
def observe_seq (self : TSKID_Prefetcher) (ip : Nat) : List (Nat × CACHE) → List observation
  | [] => []
  | (cl_addr, cache) :: rest =>
    (observe self ip cl_addr cache).2 ::
      observe_seq (initiate_lookahead self ip cl_addr cache) ip rest

end TSKID

/-! # Theorems -/

namespace TSKID

/-! ## The LRU table -/

theorem check_hit_mem (t : lru_table) (elem hit : tracker_entry)
    (h : (t.check_hit elem).1 = some hit) :
    hit ∈ t.sets (lru_table.set_idx elem) ∧ hit.ip = elem.ip := by
  unfold lru_table.check_hit at h
  cases hf : (t.sets (lru_table.set_idx elem)).find? (fun x => x.tag == elem.tag) with
  | none => simp [hf] at h
  | some x =>
    simp [hf] at h
    subst h
    refine ⟨List.mem_of_find?_eq_some hf, ?_⟩
    have := List.find?_some hf
    simpa [tracker_entry.tag] using this

theorem check_hit_sets_subset (t : lru_table) (elem : tracker_entry) (i : Fin TRACKER_SETS)
    (e : tracker_entry) (h : e ∈ (t.check_hit elem).2.sets i) : e ∈ t.sets i := by
  unfold lru_table.check_hit at h
  cases hf : (t.sets (lru_table.set_idx elem)).find? (fun x => x.tag == elem.tag) with
  | none => simpa [hf] using h
  | some x =>
    simp only [hf, Function.update_apply] at h
    split at h
    · rename_i hi
      subst hi
      rcases List.mem_cons.1 h with h1 | h1
      · subst h1; exact List.mem_of_find?_eq_some hf
      · exact List.mem_of_mem_eraseP h1
    · exact h

theorem fill_sets (t : lru_table) (elem : tracker_entry) (i : Fin TRACKER_SETS) :
    (t.fill elem).sets i =
      if i = lru_table.set_idx elem then
        elem :: (if (t.sets i).any (fun x => x.tag == elem.tag) then
                   (t.sets i).eraseP (fun x => x.tag == elem.tag)
                 else (t.sets i).take (TRACKER_WAYS - 1))
      else t.sets i := by
  by_cases hi : i = lru_table.set_idx elem
  · subst hi
    by_cases ha : (t.sets (lru_table.set_idx elem)).any (fun x => x.tag == elem.tag) = true
    · simp only [lru_table.fill, ha, if_true, Function.update_same]
    · simp only [lru_table.fill, ha, if_false, Function.update_same, if_true]
      simp
  · by_cases ha : (t.sets (lru_table.set_idx elem)).any (fun x => x.tag == elem.tag) = true
    · simp only [lru_table.fill, ha, if_true, hi, if_false, Function.update_noteq hi]
    · simp only [lru_table.fill, ha, hi, if_false]
      exact Function.update_noteq hi _ _

theorem fill_sets_subset (t : lru_table) (elem : tracker_entry) (i : Fin TRACKER_SETS)
    (e : tracker_entry) (h : e ∈ (t.fill elem).sets i) : e = elem ∨ e ∈ t.sets i := by
  rw [fill_sets] at h
  split at h
  · rcases List.mem_cons.1 h with h1 | h1
    · exact Or.inl h1
    · split at h1
      · exact Or.inr (List.mem_of_mem_eraseP h1)
      · exact Or.inr (List.mem_of_mem_take h1)
  · exact Or.inr h

theorem observe_miss (self : TSKID_Prefetcher) (ip cl_addr : Nat) (cache : CACHE)
    (h : (self.table.check_hit ⟨ip, cl_addr, 0, 0⟩).1 = none) :
    observe self ip cl_addr cache =
      (⟨self.active_lookahead,
        (self.table.check_hit ⟨ip, cl_addr, 0, 0⟩).2.fill ⟨ip, cl_addr, 0, 0⟩⟩,
       ⟨0, 0, false⟩) := by
  unfold observe
  simp only [h]

theorem observe_hit (self : TSKID_Prefetcher) (ip cl_addr : Nat) (cache : CACHE)
    (found : tracker_entry)
    (h : (self.table.check_hit ⟨ip, cl_addr, 0, 0⟩).1 = some found) :
    observe self ip cl_addr cache =
      if hit_stride cl_addr found ≠ 0 ∧
          hit_confidence cl_addr found ≥ CONFIDENCE_THRESHOLD - 1 then
        (⟨some ⟨(cl_addr <<< LOG2_BLOCK_SIZE) % 2 ^ 64, hit_stride cl_addr found,
                PREFETCH_DEGREE, (cache.current_cycle + PREFETCH_DELAY) % 2 ^ 64⟩,
          (self.table.check_hit ⟨ip, cl_addr, 0, 0⟩).2.fill
            ⟨ip, cl_addr, hit_stride cl_addr found, hit_confidence cl_addr found⟩⟩,
         ⟨hit_stride cl_addr found, hit_confidence cl_addr found, true⟩)
      else
        (⟨self.active_lookahead,
          (self.table.check_hit ⟨ip, cl_addr, 0, 0⟩).2.fill
            ⟨ip, cl_addr, hit_stride cl_addr found, hit_confidence cl_addr found⟩⟩,
         ⟨hit_stride cl_addr found, hit_confidence cl_addr found, false⟩) := by
  unfold observe hit_confidence hit_stride
  simp only [h]

theorem observe_hit_table (self : TSKID_Prefetcher) (ip cl_addr : Nat) (cache : CACHE)
    (found : tracker_entry)
    (h : (self.table.check_hit ⟨ip, cl_addr, 0, 0⟩).1 = some found) :
    (observe self ip cl_addr cache).1.table =
      (self.table.check_hit ⟨ip, cl_addr, 0, 0⟩).2.fill
        ⟨ip, cl_addr, hit_stride cl_addr found, hit_confidence cl_addr found⟩ := by
  rw [observe_hit self ip cl_addr cache found h]
  split <;> rfl

theorem observe_hit_stride (self : TSKID_Prefetcher) (ip cl_addr : Nat) (cache : CACHE)
    (found : tracker_entry)
    (h : (self.table.check_hit ⟨ip, cl_addr, 0, 0⟩).1 = some found) :
    (observe self ip cl_addr cache).2.stride = hit_stride cl_addr found := by
  rw [observe_hit self ip cl_addr cache found h]
  split <;> rfl

theorem observe_hit_confidence (self : TSKID_Prefetcher) (ip cl_addr : Nat) (cache : CACHE)
    (found : tracker_entry)
    (h : (self.table.check_hit ⟨ip, cl_addr, 0, 0⟩).1 = some found) :
    (observe self ip cl_addr cache).2.confidence = hit_confidence cl_addr found := by
  rw [observe_hit self ip cl_addr cache found h]
  split <;> simp only

theorem hit_confidence_bounds (cl_addr : Nat) (found : tracker_entry)
    (h0 : 0 ≤ found.confidence) (h2 : found.confidence ≤ CONFIDENCE_THRESHOLD) :
    0 ≤ hit_confidence cl_addr found ∧ hit_confidence cl_addr found ≤ CONFIDENCE_THRESHOLD := by
  unfold hit_confidence
  unfold CONFIDENCE_THRESHOLD at *
  split <;> omega

theorem observe_conf_bounded (self : TSKID_Prefetcher) (ip cl_addr : Nat) (cache : CACHE)
    (hb : conf_bounded self.table) :
    (0 ≤ (observe self ip cl_addr cache).2.confidence ∧
      (observe self ip cl_addr cache).2.confidence ≤ CONFIDENCE_THRESHOLD) ∧
    conf_bounded (observe self ip cl_addr cache).1.table := by
  have hsub : ∀ (a b : Nat) (s c : Int), (0 ≤ c ∧ c ≤ CONFIDENCE_THRESHOLD) →
      conf_bounded ((self.table.check_hit ⟨ip, cl_addr, 0, 0⟩).2.fill ⟨a, b, s, c⟩) := by
    intro a b s c hx i e he
    rcases fill_sets_subset _ _ _ _ he with h1 | h1
    · subst h1; exact hx
    · exact hb i e (check_hit_sets_subset _ _ _ _ h1)
  cases hc : (self.table.check_hit ⟨ip, cl_addr, 0, 0⟩).1 with
  | none =>
    rw [observe_miss self ip cl_addr cache hc]
    exact ⟨by simp [CONFIDENCE_THRESHOLD], hsub _ _ _ _ (by simp [CONFIDENCE_THRESHOLD])⟩
  | some found =>
    have hf := hb _ _ (check_hit_mem _ _ _ hc).1
    have hcl := hit_confidence_bounds cl_addr found hf.1 hf.2
    rw [observe_hit_table self ip cl_addr cache found hc,
      observe_hit_confidence self ip cl_addr cache found hc]
    exact ⟨hcl, hsub _ _ _ _ hcl⟩

theorem observe_all_conf_bounded (calls : List (Nat × Nat × CACHE)) :
    ∀ self : TSKID_Prefetcher, conf_bounded self.table →
      conf_bounded (observe_all self calls).table := by
  induction calls with
  | nil => intro self h; exact h
  | cons c cs ih =>
    intro self h
    exact ih _ (observe_conf_bounded self c.1 c.2.1 c.2.2 h).2

/-- C1. Starting from the empty tracker table (and any lookahead slot), after every finite
sequence of `initiate_lookahead` calls with arbitrary ips and line addresses, every entry
stored in the table has a confidence in `[0, CONFIDENCE_THRESHOLD]`, and the confidence
written by one more call is in `[0, CONFIDENCE_THRESHOLD]` as well. -/
theorem confidence_bounds (la0 : Option lookahead_entry) (calls : List (Nat × Nat × CACHE))
    (ip cl_addr : Nat) (cache : CACHE) :
    (∀ (i : Fin TRACKER_SETS) (e : tracker_entry),
        e ∈ (observe_all ⟨la0, lru_table.empty⟩ calls).table.sets i →
          0 ≤ e.confidence ∧ e.confidence ≤ CONFIDENCE_THRESHOLD) ∧
    0 ≤ (observe (observe_all ⟨la0, lru_table.empty⟩ calls) ip cl_addr cache).2.confidence ∧
    (observe (observe_all ⟨la0, lru_table.empty⟩ calls) ip cl_addr cache).2.confidence
      ≤ CONFIDENCE_THRESHOLD := by
  have h0 : conf_bounded (⟨la0, lru_table.empty⟩ : TSKID_Prefetcher).table := by
    intro i e he
    simp [lru_table.empty] at he
  have h := observe_all_conf_bounded calls _ h0
  exact ⟨h, (observe_conf_bounded _ ip cl_addr cache h).1⟩

/-- Witness of C1: after the accesses to lines 10, 20, 30 by ip 256 the stored entry has
confidence 1. -/
theorem confidence_bounds_witness :
    (⟨256, 30, 10, 1⟩ : tracker_entry) ∈
        (observe_all ⟨none, lru_table.empty⟩
          [(256, 10, ⟨0, false, 0, fun _ _ _ => true⟩),
           (256, 20, ⟨1, false, 0, fun _ _ _ => true⟩),
           (256, 30, ⟨2, false, 0, fun _ _ _ => true⟩)]).table.sets 0 ∧
      (0 : Int) ≤ 1 ∧ (1 : Int) ≤ CONFIDENCE_THRESHOLD :=
  ⟨by decide,
   (confidence_bounds none
      [(256, 10, ⟨0, false, 0, fun _ _ _ => true⟩),
       (256, 20, ⟨1, false, 0, fun _ _ _ => true⟩),
       (256, 30, ⟨2, false, 0, fun _ _ _ => true⟩)] 0 0 ⟨0, false, 0, fun _ _ _ => true⟩).1
      0 ⟨256, 30, 10, 1⟩ (by decide)⟩

theorem check_hit_fst (t : lru_table) (p : tracker_entry) :
    (t.check_hit p).1 = (t.sets (lru_table.set_idx p)).find? (fun x => x.tag == p.tag) := by
  unfold lru_table.check_hit
  cases hf : (t.sets (lru_table.set_idx p)).find? (fun x => x.tag == p.tag) <;> simp only [hf]

theorem check_hit_fill (t : lru_table) (e p : tracker_entry) (h : p.ip = e.ip) :
    ((t.fill e).check_hit p).1 = some e := by
  have hi : lru_table.set_idx p = lru_table.set_idx e := by
    simp only [lru_table.set_idx, tracker_entry.index, h]
  rw [check_hit_fst, hi, fill_sets, if_pos rfl]
  simp [tracker_entry.tag, h]

theorem observe_lookup (self : TSKID_Prefetcher) (ip cl_addr : Nat) (cache : CACHE)
    (p : tracker_entry) (hp : p.ip = ip) :
    ((observe self ip cl_addr cache).1.table.check_hit p).1 =
      some ⟨ip, cl_addr, (observe self ip cl_addr cache).2.stride,
        (observe self ip cl_addr cache).2.confidence⟩ := by
  cases hc : (self.table.check_hit ⟨ip, cl_addr, 0, 0⟩).1 with
  | none =>
    rw [observe_miss self ip cl_addr cache hc]
    exact check_hit_fill _ _ _ hp
  | some found =>
    rw [observe_hit_table self ip cl_addr cache found hc,
      observe_hit_stride self ip cl_addr cache found hc,
      observe_hit_confidence self ip cl_addr cache found hc]
    exact check_hit_fill _ _ _ hp

theorem observe_didArm (self : TSKID_Prefetcher) (ip cl_addr : Nat) (cache : CACHE) :
    (observe self ip cl_addr cache).2.didArm =
      decide ((observe self ip cl_addr cache).2.stride ≠ 0 ∧
        (observe self ip cl_addr cache).2.confidence ≥ CONFIDENCE_THRESHOLD - 1) := by
  cases hc : (self.table.check_hit ⟨ip, cl_addr, 0, 0⟩).1 with
  | none =>
    rw [observe_miss self ip cl_addr cache hc]
    simp
  | some found =>
    rw [observe_hit self ip cl_addr cache found hc]
    split
    · rename_i h
      exact (decide_eq_true h).symm
    · rename_i h
      exact (decide_eq_false h).symm

theorem observe_slot (self : TSKID_Prefetcher) (ip cl_addr : Nat) (cache : CACHE) :
    (observe self ip cl_addr cache).1.active_lookahead =
      if (observe self ip cl_addr cache).2.didArm = true then
        some ⟨(cl_addr <<< LOG2_BLOCK_SIZE) % 2 ^ 64, (observe self ip cl_addr cache).2.stride,
          PREFETCH_DEGREE, (cache.current_cycle + PREFETCH_DELAY) % 2 ^ 64⟩
      else self.active_lookahead := by
  cases hc : (self.table.check_hit ⟨ip, cl_addr, 0, 0⟩).1 with
  | none =>
    rw [observe_miss self ip cl_addr cache hc]
    simp
  | some found =>
    rw [observe_hit self ip cl_addr cache found hc]
    split <;> simp

/-- C2. For every engine state and every call `observe(ip, line)`, the assignment to the
active lookahead is executed if and only if the stride computed by the call is nonzero and
the resulting confidence is at least `CONFIDENCE_THRESHOLD - 1`; the slot after the call is
the fresh lookahead when that condition holds and the slot before the call when it does
not; and on a cold miss the stride is 0, nothing is armed and the slot is unchanged. -/
theorem arming_condition (self : TSKID_Prefetcher) (ip cl_addr : Nat) (cache : CACHE) :
    ((observe self ip cl_addr cache).2.didArm = true ↔
      ((observe self ip cl_addr cache).2.stride ≠ 0 ∧
        (observe self ip cl_addr cache).2.confidence ≥ CONFIDENCE_THRESHOLD - 1)) ∧
    (initiate_lookahead self ip cl_addr cache).active_lookahead =
      (if (observe self ip cl_addr cache).2.stride ≠ 0 ∧
          (observe self ip cl_addr cache).2.confidence ≥ CONFIDENCE_THRESHOLD - 1 then
        some ⟨(cl_addr <<< LOG2_BLOCK_SIZE) % 2 ^ 64, (observe self ip cl_addr cache).2.stride,
          PREFETCH_DEGREE, (cache.current_cycle + PREFETCH_DELAY) % 2 ^ 64⟩
      else self.active_lookahead) ∧
    ((self.table.check_hit ⟨ip, cl_addr, 0, 0⟩).1 = none →
      (observe self ip cl_addr cache).2.stride = 0 ∧
      (observe self ip cl_addr cache).2.didArm = false ∧
      (initiate_lookahead self ip cl_addr cache).active_lookahead = self.active_lookahead) := by
  refine ⟨?_, ?_, ?_⟩
  · rw [observe_didArm]
    exact decide_eq_true_iff
  · unfold initiate_lookahead
    rw [observe_slot, observe_didArm]
    simp only [decide_eq_true_eq]
  · intro hc
    unfold initiate_lookahead
    rw [observe_miss self ip cl_addr cache hc]
    simp

/-- Witness of C2: a cold miss on the empty table arms nothing, and the third access of the
stream 10, 20, 30 arms. -/
theorem arming_condition_witness :
    ((({} : TSKID_Prefetcher).table.check_hit ⟨256, 10, 0, 0⟩).1 = none ∧
      (observe {} 256 10 ⟨7, false, 0, fun _ _ _ => true⟩).2.stride = 0 ∧
      (observe {} 256 10 ⟨7, false, 0, fun _ _ _ => true⟩).2.didArm = false ∧
      (initiate_lookahead {} 256 10 ⟨7, false, 0, fun _ _ _ => true⟩).active_lookahead = none) ∧
    (observe (observe_all {} [(256, 10, ⟨7, false, 0, fun _ _ _ => true⟩),
        (256, 20, ⟨8, false, 0, fun _ _ _ => true⟩)]) 256 30
        ⟨9, false, 0, fun _ _ _ => true⟩).2.didArm = true :=
  ⟨⟨by decide, (arming_condition {} 256 10 ⟨7, false, 0, fun _ _ _ => true⟩).2.2 (by decide)⟩,
   (arming_condition (observe_all {} [(256, 10, ⟨7, false, 0, fun _ _ _ => true⟩),
        (256, 20, ⟨8, false, 0, fun _ _ _ => true⟩)]) 256 30
        ⟨9, false, 0, fun _ _ _ => true⟩).1.2 ⟨by decide, by decide⟩⟩

theorem hit_stride_exact (cl_addr : Nat) (found : tracker_entry)
    (h1 : cl_addr < 2 ^ 63) (h2 : found.last_cl_addr < 2 ^ 63) :
    hit_stride cl_addr found = (cl_addr : Int) - (found.last_cl_addr : Int) := by
  unfold hit_stride toInt64
  omega

/-- C3. For every table state and every `observe(ip, line)` with line addresses below
`2^63`: on a hit on an entry `(last, prevStride, c)` the stride is `line - last` as an exact
integer and the new confidence is `min (c+1) 2` when the stride equals `prevStride` and
`max (c-1) 0` otherwise; on a miss the stride and the confidence are 0; and in both cases
a lookup of `ip` right after the call hits and returns `(ip, line, stride, confidence)`. -/
theorem tracker_update_rule (self : TSKID_Prefetcher) (ip cl_addr : Nat) (cache : CACHE)
    (hcl : cl_addr < 2 ^ 63) :
    (∀ found : tracker_entry,
      (self.table.check_hit ⟨ip, cl_addr, 0, 0⟩).1 = some found →
      found.last_cl_addr < 2 ^ 63 →
        (observe self ip cl_addr cache).2.stride = (cl_addr : Int) - (found.last_cl_addr : Int) ∧
        (observe self ip cl_addr cache).2.confidence =
          (if (cl_addr : Int) - (found.last_cl_addr : Int) = found.last_stride then
            min (found.confidence + 1) 2
          else max (found.confidence - 1) 0)) ∧
    ((self.table.check_hit ⟨ip, cl_addr, 0, 0⟩).1 = none →
        (observe self ip cl_addr cache).2.stride = 0 ∧
        (observe self ip cl_addr cache).2.confidence = 0) ∧
    (∀ (a : Nat) (s c : Int),
      ((initiate_lookahead self ip cl_addr cache).table.check_hit ⟨ip, a, s, c⟩).1 =
        some ⟨ip, cl_addr, (observe self ip cl_addr cache).2.stride,
          (observe self ip cl_addr cache).2.confidence⟩) := by
  refine ⟨?_, ?_, ?_⟩
  · intro found hc hlast
    rw [observe_hit_stride self ip cl_addr cache found hc,
      observe_hit_confidence self ip cl_addr cache found hc,
      ← hit_stride_exact cl_addr found hcl hlast]
    refine ⟨rfl, ?_⟩
    unfold hit_confidence CONFIDENCE_THRESHOLD
    rfl
  · intro hc
    rw [observe_miss self ip cl_addr cache hc]
    exact ⟨rfl, rfl⟩
  · intro a s c
    exact observe_lookup self ip cl_addr cache ⟨ip, a, s, c⟩ rfl

/-- Witness of C3: a miss on the empty table, and the hit of the third access of the stream
10, 20, 30 on the entry `(20, 10, 0)`. -/
theorem tracker_update_rule_witness :
    ((({} : TSKID_Prefetcher).table.check_hit ⟨256, 10, 0, 0⟩).1 = none ∧
      (observe {} 256 10 ⟨7, false, 0, fun _ _ _ => true⟩).2.stride = 0 ∧
      (observe {} 256 10 ⟨7, false, 0, fun _ _ _ => true⟩).2.confidence = 0) ∧
    (((observe_all {} [(256, 10, ⟨7, false, 0, fun _ _ _ => true⟩),
        (256, 20, ⟨8, false, 0, fun _ _ _ => true⟩)]).table.check_hit ⟨256, 30, 0, 0⟩).1 =
        some ⟨256, 20, 10, 0⟩ ∧
      (observe (observe_all {} [(256, 10, ⟨7, false, 0, fun _ _ _ => true⟩),
        (256, 20, ⟨8, false, 0, fun _ _ _ => true⟩)]) 256 30
        ⟨9, false, 0, fun _ _ _ => true⟩).2.stride = 10 ∧
      (observe (observe_all {} [(256, 10, ⟨7, false, 0, fun _ _ _ => true⟩),
        (256, 20, ⟨8, false, 0, fun _ _ _ => true⟩)]) 256 30
        ⟨9, false, 0, fun _ _ _ => true⟩).2.confidence = 1) :=
  ⟨⟨by decide,
    (tracker_update_rule {} 256 10 ⟨7, false, 0, fun _ _ _ => true⟩ (by decide)).2.1
      (by decide)⟩,
   ⟨by decide,
    (tracker_update_rule (observe_all {} [(256, 10, ⟨7, false, 0, fun _ _ _ => true⟩),
        (256, 20, ⟨8, false, 0, fun _ _ _ => true⟩)]) 256 30
        ⟨9, false, 0, fun _ _ _ => true⟩ (by decide)).1 ⟨256, 20, 10, 0⟩
      (by decide) (by decide)⟩⟩

theorem observe_of_lookup (self : TSKID_Prefetcher) (ip cl_addr : Nat) (cache : CACHE)
    (found : tracker_entry) (h : (self.table.check_hit ⟨ip, cl_addr, 0, 0⟩).1 = some found) :
    (observe self ip cl_addr cache).2 =
      ⟨hit_stride cl_addr found, hit_confidence cl_addr found,
        decide (hit_stride cl_addr found ≠ 0 ∧
          hit_confidence cl_addr found ≥ CONFIDENCE_THRESHOLD - 1)⟩ := by
  have h1 := observe_didArm self ip cl_addr cache
  have h2 := observe_hit_stride self ip cl_addr cache found h
  have h3 := observe_hit_confidence self ip cl_addr cache found h
  rw [h2, h3] at h1
  cases hobs : (observe self ip cl_addr cache).2 with
  | mk s c d =>
    rw [hobs] at h1 h2 h3
    simp only at h1 h2 h3
    rw [h1, h2, h3]

/-- C4. Cold start: for an ip that is not in the table and line addresses `a`, `b = a + s`,
`c = a + 2s` (`a` and `c` 64-bit values, hence `b` as well; `s` nonzero), three consecutive calls `observe(ip, a)`,
`observe(ip, a + s)`, `observe(ip, a + 2s)` yield (stride 0, confidence 0, no arm),
(stride `s`, confidence 0, no arm) and (stride `s`, confidence 1, arm), the lookahead slot
being untouched by the first two calls and armed with stride `s` by the third. -/
theorem cold_start (self : TSKID_Prefetcher) (ip a b c : Nat) (s : Int)
    (cache1 cache2 cache3 : CACHE)
    (hmiss : (self.table.check_hit ⟨ip, a, 0, 0⟩).1 = none)
    (hs : s ≠ 0) (ha : a < 2 ^ 64) (hc : c < 2 ^ 64)
    (hab : (b : Int) = a + s) (hac : (c : Int) = a + 2 * s) :
    (observe self ip a cache1).2 = ⟨0, 0, false⟩ ∧
    (observe (initiate_lookahead self ip a cache1) ip b cache2).2 = ⟨s, 0, false⟩ ∧
    (observe (initiate_lookahead (initiate_lookahead self ip a cache1) ip b cache2)
      ip c cache3).2 = ⟨s, 1, true⟩ ∧
    (initiate_lookahead self ip a cache1).active_lookahead = self.active_lookahead ∧
    (initiate_lookahead (initiate_lookahead self ip a cache1) ip b cache2).active_lookahead
      = self.active_lookahead ∧
    (initiate_lookahead (initiate_lookahead (initiate_lookahead self ip a cache1) ip b cache2)
      ip c cache3).active_lookahead =
      some ⟨(c <<< LOG2_BLOCK_SIZE) % 2 ^ 64, s, PREFETCH_DEGREE,
        (cache3.current_cycle + PREFETCH_DELAY) % 2 ^ 64⟩ := by
  have e1 : (observe self ip a cache1).2 = ⟨0, 0, false⟩ := by
    rw [observe_miss self ip a cache1 hmiss]
  have l1 := observe_lookup self ip a cache1 ⟨ip, b, 0, 0⟩ rfl
  rw [e1] at l1
  have hs2 : hit_stride b ⟨ip, a, 0, 0⟩ = s := by
    unfold hit_stride toInt64
    simp only
    omega
  have hc2 : hit_confidence b ⟨ip, a, 0, 0⟩ = 0 := by
    unfold hit_confidence
    rw [hs2]
    simp only [if_neg hs]
    decide
  have e2 : (observe (initiate_lookahead self ip a cache1) ip b cache2).2 = ⟨s, 0, false⟩ := by
    rw [observe_of_lookup (initiate_lookahead self ip a cache1) ip b cache2 ⟨ip, a, 0, 0⟩ l1,
      hs2, hc2]
    simp [CONFIDENCE_THRESHOLD]
  have l2 := observe_lookup (initiate_lookahead self ip a cache1) ip b cache2 ⟨ip, c, 0, 0⟩ rfl
  rw [e2] at l2
  have hs3 : hit_stride c ⟨ip, b, s, 0⟩ = s := by
    unfold hit_stride toInt64
    simp only
    omega
  have hc3 : hit_confidence c ⟨ip, b, s, 0⟩ = 1 := by
    unfold hit_confidence
    rw [hs3]
    simp only [if_true]
    decide
  have e3 : (observe (initiate_lookahead (initiate_lookahead self ip a cache1) ip b cache2)
      ip c cache3).2 = ⟨s, 1, true⟩ := by
    rw [observe_of_lookup (initiate_lookahead (initiate_lookahead self ip a cache1) ip b cache2)
      ip c cache3 ⟨ip, b, s, 0⟩ l2, hs3, hc3]
    simp [CONFIDENCE_THRESHOLD, hs]
  have a1 := observe_slot self ip a cache1
  have a2 := observe_slot (initiate_lookahead self ip a cache1) ip b cache2
  have a3 := observe_slot (initiate_lookahead (initiate_lookahead self ip a cache1) ip b cache2)
    ip c cache3
  rw [e1] at a1
  rw [e2] at a2
  rw [e3] at a3
  simp only [Bool.false_eq_true, if_false, if_true] at a1 a2 a3
  refine ⟨e1, e2, e3, a1, ?_, a3⟩
  exact a2.trans a1

/-- Witness of C4: ip `0x100` and the lines 10, 20, 30 on the empty table: stride 10 and an
arm on the third call. -/
theorem cold_start_witness :
    (observe {} 0x100 10 ⟨7, false, 0, fun _ _ _ => true⟩).2 = ⟨0, 0, false⟩ ∧
    (observe (initiate_lookahead {} 0x100 10 ⟨7, false, 0, fun _ _ _ => true⟩) 0x100 20
      ⟨8, false, 0, fun _ _ _ => true⟩).2 = ⟨10, 0, false⟩ ∧
    (observe (initiate_lookahead (initiate_lookahead {} 0x100 10
        ⟨7, false, 0, fun _ _ _ => true⟩) 0x100 20 ⟨8, false, 0, fun _ _ _ => true⟩)
      0x100 30 ⟨9, false, 0, fun _ _ _ => true⟩).2 = ⟨10, 1, true⟩ ∧
    (initiate_lookahead {} 0x100 10 ⟨7, false, 0, fun _ _ _ => true⟩).active_lookahead = none ∧
    (initiate_lookahead (initiate_lookahead {} 0x100 10 ⟨7, false, 0, fun _ _ _ => true⟩)
      0x100 20 ⟨8, false, 0, fun _ _ _ => true⟩).active_lookahead = none ∧
    (initiate_lookahead (initiate_lookahead (initiate_lookahead {} 0x100 10
        ⟨7, false, 0, fun _ _ _ => true⟩) 0x100 20 ⟨8, false, 0, fun _ _ _ => true⟩)
      0x100 30 ⟨9, false, 0, fun _ _ _ => true⟩).active_lookahead =
      some ⟨1920, 10, 3, 39⟩ :=
  cold_start {} 0x100 10 20 30 10 ⟨7, false, 0, fun _ _ _ => true⟩
    ⟨8, false, 0, fun _ _ _ => true⟩ ⟨9, false, 0, fun _ _ _ => true⟩
    (by decide) (by decide) (by decide) (by decide) (by decide) (by decide)

/-! ## The lookahead engine -/

theorem wrap_add (p x : Int) : toUInt64 (toInt64 p + toInt64 x) = toUInt64 (p + x) := by
  unfold toUInt64 toInt64
  omega

theorem advance_idle (self : TSKID_Prefetcher) (cache : CACHE)
    (h : self.active_lookahead = none) : advance_lookahead self cache = some (self, []) := by
  unfold advance_lookahead
  rw [h]

theorem advance_wait (self : TSKID_Prefetcher) (cache : CACHE) (la : lookahead_entry)
    (h : self.active_lookahead = some la) (hw : cache.current_cycle < la.issue_cycle) :
    advance_lookahead self cache = some (self, []) := by
  unfold advance_lookahead
  rw [h]
  simp only [not_le.2 hw, if_false]

theorem advance_ready (self : TSKID_Prefetcher) (cache : CACHE) (la : lookahead_entry)
    (h : self.active_lookahead = some la) (hready : la.issue_cycle ≤ cache.current_cycle)
    (hdeg : 0 < la.degree) :
    advance_lookahead self cache =
      if cache.virtual_prefetch = true ∨
          toUInt64 (la.address + la.stride * BLOCK_SIZE) >>> LOG2_PAGE_SIZE
            = la.address >>> LOG2_PAGE_SIZE then
        some (⟨if cache.prefetch_line (toUInt64 (la.address + la.stride * BLOCK_SIZE))
                  (decide (cache.get_mshr_occupancy_ratio < 1 / 2)) 0 = true then
                (if la.degree - 1 = 0 then none
                 else some ⟨toUInt64 (la.address + la.stride * BLOCK_SIZE), la.stride,
                        la.degree - 1, (cache.current_cycle + PREFETCH_DELAY) % 2 ^ 64⟩)
               else some la, self.table⟩,
          [⟨toUInt64 (la.address + la.stride * BLOCK_SIZE),
            decide (cache.get_mshr_occupancy_ratio < 1 / 2), 0⟩])
      else some (⟨none, self.table⟩, []) := by
  have hd0 : ¬ la.degree = 0 := by omega
  unfold advance_lookahead
  rw [h]
  simp only [hready, if_true, gt_iff_lt, hdeg, wrap_add]
  by_cases hp : cache.virtual_prefetch = true ∨
      toUInt64 (la.address + la.stride * BLOCK_SIZE) >>> LOG2_PAGE_SIZE
        = la.address >>> LOG2_PAGE_SIZE
  · simp only [hp, if_true]
    by_cases hs : cache.prefetch_line (toUInt64 (la.address + la.stride * BLOCK_SIZE))
        (decide (cache.get_mshr_occupancy_ratio < 1 / 2)) 0 = true
    · simp only [hs, if_true]
    · simp only [hs, if_false, hd0, Bool.false_eq_true]
  · simp only [hp, if_false]

/-- C6. Page guard: for an armed lookahead `(p, s)` with a positive degree and a tick at a
cycle not before its ready cycle: without virtual prefetching, if the page of
`p + s * BLOCK_SIZE` (modulo `2^64`) differs from the page of `p`, the tick sends no
request to the host and leaves the engine idle; with virtual prefetching the request is
sent whatever the pages are, and the engine is idle afterwards only when the host accepted
the request and the degree was used up. -/
theorem page_guard (self : TSKID_Prefetcher) (cache : CACHE) (la : lookahead_entry)
    (h : self.active_lookahead = some la) (hready : la.issue_cycle ≤ cache.current_cycle)
    (hdeg : 0 < la.degree) :
    (cache.virtual_prefetch = false →
      toUInt64 (la.address + la.stride * BLOCK_SIZE) >>> LOG2_PAGE_SIZE
        ≠ la.address >>> LOG2_PAGE_SIZE →
      advance_lookahead self cache = some (⟨none, self.table⟩, [])) ∧
    (cache.virtual_prefetch = true →
      ∃ st, advance_lookahead self cache =
          some (st, [⟨toUInt64 (la.address + la.stride * BLOCK_SIZE),
            decide (cache.get_mshr_occupancy_ratio < 1 / 2), 0⟩]) ∧
        (st.active_lookahead = none →
          cache.prefetch_line (toUInt64 (la.address + la.stride * BLOCK_SIZE))
            (decide (cache.get_mshr_occupancy_ratio < 1 / 2)) 0 = true ∧ la.degree = 1)) := by
  refine ⟨?_, ?_⟩
  · intro hv hpage
    rw [advance_ready self cache la h hready hdeg, if_neg]
    rw [hv]
    simp only [Bool.false_eq_true, false_or]
    exact hpage
  · intro hv
    rw [advance_ready self cache la h hready hdeg, if_pos (Or.inl hv)]
    refine ⟨_, rfl, ?_⟩
    intro hnone
    by_cases hs : cache.prefetch_line (toUInt64 (la.address + la.stride * BLOCK_SIZE))
        (decide (cache.get_mshr_occupancy_ratio < 1 / 2)) 0 = true
    · simp only [hs, if_true] at hnone
      by_cases hd1 : la.degree - 1 = 0
      · exact ⟨hs, by omega⟩
      · simp only [hd1, if_false] at hnone
        exact absurd hnone (by simp)
    · simp only [hs, if_false] at hnone
      exact absurd hnone (by simp)

/-- Witness of C6: the lookahead at byte 4032 with stride 1 would cross into the next page;
without virtual prefetching the tick aborts it, with virtual prefetching the request for
byte 4096 is sent. -/
theorem page_guard_witness :
    (toUInt64 ((4032 : Nat) + (1 : Int) * BLOCK_SIZE) >>> LOG2_PAGE_SIZE
        ≠ 4032 >>> LOG2_PAGE_SIZE ∧
      advance_lookahead ⟨some ⟨4032, 1, 3, 39⟩, lru_table.empty⟩
        ⟨39, false, 0, fun _ _ _ => true⟩ = some (⟨none, lru_table.empty⟩, [])) ∧
    (∃ st, advance_lookahead ⟨some ⟨4032, 1, 3, 39⟩, lru_table.empty⟩
          ⟨39, true, 0, fun _ _ _ => true⟩ =
          some (st, [⟨toUInt64 ((4032 : Nat) + (1 : Int) * BLOCK_SIZE),
            decide ((0 : ℚ) < 1 / 2), 0⟩]) ∧
        (st.active_lookahead = none → true = true ∧ (3 : Int) = 1)) :=
  ⟨⟨by decide,
    (page_guard ⟨some ⟨4032, 1, 3, 39⟩, lru_table.empty⟩ ⟨39, false, 0, fun _ _ _ => true⟩
      ⟨4032, 1, 3, 39⟩ rfl (by decide) (by decide)).1 rfl (by decide)⟩,
   (page_guard ⟨some ⟨4032, 1, 3, 39⟩, lru_table.empty⟩ ⟨39, true, 0, fun _ _ _ => true⟩
      ⟨4032, 1, 3, 39⟩ rfl (by decide) (by decide)).2 rfl⟩

/-- C7. Host rejection leaves the lookahead pending: for an armed lookahead with a positive
degree, a tick that is ready and page-valid but whose request the host rejects sends that
one request and leaves the engine state, hence the lookahead (address, stride, degree and
ready cycle), exactly as it was. -/
theorem rejection_keeps_lookahead (self : TSKID_Prefetcher) (cache : CACHE)
    (la : lookahead_entry)
    (h : self.active_lookahead = some la) (hready : la.issue_cycle ≤ cache.current_cycle)
    (hdeg : 0 < la.degree)
    (hpage : cache.virtual_prefetch = true ∨
      toUInt64 (la.address + la.stride * BLOCK_SIZE) >>> LOG2_PAGE_SIZE
        = la.address >>> LOG2_PAGE_SIZE)
    (hrej : cache.prefetch_line (toUInt64 (la.address + la.stride * BLOCK_SIZE))
      (decide (cache.get_mshr_occupancy_ratio < 1 / 2)) 0 = false) :
    advance_lookahead self cache =
      some (self, [⟨toUInt64 (la.address + la.stride * BLOCK_SIZE),
        decide (cache.get_mshr_occupancy_ratio < 1 / 2), 0⟩]) ∧
    ∀ st reqs, advance_lookahead self cache = some (st, reqs) →
      st.active_lookahead = some la := by
  have hadv : advance_lookahead self cache =
      some (self, [⟨toUInt64 (la.address + la.stride * BLOCK_SIZE),
        decide (cache.get_mshr_occupancy_ratio < 1 / 2), 0⟩]) := by
    rw [advance_ready self cache la h hready hdeg, if_pos hpage, hrej]
    simp only [Bool.false_eq_true, if_false]
    rw [← h]
  refine ⟨hadv, ?_⟩
  intro st reqs hst
  rw [hadv] at hst
  have := (Prod.mk.inj (Option.some.inj hst)).1
  rw [← this]
  exact h

/-- Witness of C7: a host that rejects every request. -/
theorem rejection_keeps_lookahead_witness :
    (toUInt64 ((1920 : Nat) + (10 : Int) * BLOCK_SIZE) >>> LOG2_PAGE_SIZE
        = 1920 >>> LOG2_PAGE_SIZE) ∧
    ∀ st reqs, advance_lookahead ⟨some ⟨1920, 10, 3, 39⟩, lru_table.empty⟩
        ⟨39, false, 0, fun _ _ _ => false⟩ = some (st, reqs) →
      st.active_lookahead = some ⟨1920, 10, 3, 39⟩ :=
  ⟨by decide,
   (rejection_keeps_lookahead ⟨some ⟨1920, 10, 3, 39⟩, lru_table.empty⟩
      ⟨39, false, 0, fun _ _ _ => false⟩ ⟨1920, 10, 3, 39⟩ rfl (by decide) (by decide)
      (Or.inr (by decide)) rfl).2⟩

/-- C8, as stated, fails: with the lookahead `(1920, 10, 3, 39)` armed, the tick at cycle 39
is ready and page-valid, the host rejects its request for byte 2560, and the lookahead is
still stored afterwards, unchanged; the engine is not idle. -/
theorem rejection_destroys_counterexample :
    ((39 : Nat) ≤ 39 ∧
      toUInt64 ((1920 : Nat) + (10 : Int) * BLOCK_SIZE) >>> LOG2_PAGE_SIZE
        = 1920 >>> LOG2_PAGE_SIZE) ∧
    (advance_lookahead ⟨some ⟨1920, 10, 3, 39⟩, lru_table.empty⟩
        ⟨39, false, 0, fun _ _ _ => false⟩).map (fun r => (r.1.active_lookahead, r.2)) =
      some (some ⟨1920, 10, 3, 39⟩, [⟨2560, decide ((0 : ℚ) < 1 / 2), 0⟩]) ∧
    (advance_lookahead ⟨some ⟨1920, 10, 3, 39⟩, lru_table.empty⟩
        ⟨39, false, 0, fun _ _ _ => false⟩).map (fun r => r.1.active_lookahead) ≠
      some none := by
  refine ⟨by decide, ?_, by decide⟩
  rfl

/-- C8, amended. For an armed lookahead with a positive degree, a tick leaves the engine
idle exactly when the tick is ready and either the page check fails or the host accepts the
request and the degree reaches zero. A rejection does not destroy the lookahead: after a
ready, page-valid tick whose request the host rejects, the engine is not idle. -/
theorem lookahead_destroyed_iff (self : TSKID_Prefetcher) (cache : CACHE)
    (la : lookahead_entry)
    (h : self.active_lookahead = some la) (hdeg : 0 < la.degree) :
    ∃ st reqs, advance_lookahead self cache = some (st, reqs) ∧
      (st.active_lookahead = none ↔
        la.issue_cycle ≤ cache.current_cycle ∧
        (¬ (cache.virtual_prefetch = true ∨
            toUInt64 (la.address + la.stride * BLOCK_SIZE) >>> LOG2_PAGE_SIZE
              = la.address >>> LOG2_PAGE_SIZE) ∨
          (cache.prefetch_line (toUInt64 (la.address + la.stride * BLOCK_SIZE))
              (decide (cache.get_mshr_occupancy_ratio < 1 / 2)) 0 = true ∧
            la.degree - 1 = 0))) ∧
      (la.issue_cycle ≤ cache.current_cycle →
        (cache.virtual_prefetch = true ∨
            toUInt64 (la.address + la.stride * BLOCK_SIZE) >>> LOG2_PAGE_SIZE
              = la.address >>> LOG2_PAGE_SIZE) →
        cache.prefetch_line (toUInt64 (la.address + la.stride * BLOCK_SIZE))
            (decide (cache.get_mshr_occupancy_ratio < 1 / 2)) 0 = false →
        st.active_lookahead ≠ none) := by
  by_cases hready : la.issue_cycle ≤ cache.current_cycle
  · rw [advance_ready self cache la h hready hdeg]
    by_cases hp : cache.virtual_prefetch = true ∨
        toUInt64 (la.address + la.stride * BLOCK_SIZE) >>> LOG2_PAGE_SIZE
          = la.address >>> LOG2_PAGE_SIZE
    · rw [if_pos hp]
      refine ⟨_, _, rfl, ?_, ?_⟩
      · by_cases hs : cache.prefetch_line (toUInt64 (la.address + la.stride * BLOCK_SIZE))
            (decide (cache.get_mshr_occupancy_ratio < 1 / 2)) 0 = true
        · by_cases hd1 : la.degree - 1 = 0
          · simp only [hs, hd1, if_true, hready, hp, not_true_eq_false, and_self, or_true]
          · simp only [hs, hd1, if_true, if_false, hready, hp, not_true_eq_false, and_false,
              or_false, reduceCtorEq]
        · simp only [hs, if_false, hready, hp, not_true_eq_false, false_and, or_false,
            and_false, reduceCtorEq]
      · intro _ _ hrej
        simp only [hrej, Bool.false_eq_true, if_false, ne_eq, reduceCtorEq, not_false_eq_true]
    · rw [if_neg hp]
      refine ⟨_, _, rfl, ?_, ?_⟩
      · simp only [hready, hp, not_false_eq_true, true_or, and_self]
      · intro _ hp2
        exact absurd hp2 hp
  · rw [advance_wait self cache la h (not_le.1 hready)]
    refine ⟨_, _, rfl, ?_, ?_⟩
    · simp only [h, hready, false_and, reduceCtorEq]
    · intro hr
      exact absurd hr hready

/-- Witness of C8 (amended): the rejected tick at cycle 39 leaves the engine armed. -/
theorem lookahead_destroyed_iff_witness :
    ∃ st reqs, advance_lookahead ⟨some ⟨1920, 10, 3, 39⟩, lru_table.empty⟩
        ⟨39, false, 0, fun _ _ _ => false⟩ = some (st, reqs) ∧
      st.active_lookahead ≠ none := by
  obtain ⟨st, reqs, hadv, _, hrej⟩ :=
    lookahead_destroyed_iff ⟨some ⟨1920, 10, 3, 39⟩, lru_table.empty⟩
      ⟨39, false, 0, fun _ _ _ => false⟩ ⟨1920, 10, 3, 39⟩ rfl (by decide)
  exact ⟨st, reqs, hadv, hrej (by decide) (Or.inr (by decide)) rfl⟩

/-- C9. A tick is a no-op when idle or not yet ready: when no lookahead is armed, or the
armed lookahead has a ready cycle after the current cycle, `advance_lookahead` sends no
request to the host and returns the engine state (lookahead slot and tracker table)
unchanged. -/
theorem tick_noop (self : TSKID_Prefetcher) (cache : CACHE)
    (h : self.active_lookahead = none ∨
      ∃ la, self.active_lookahead = some la ∧ cache.current_cycle < la.issue_cycle) :
    advance_lookahead self cache = some (self, []) := by
  rcases h with h | ⟨la, h, hw⟩
  · exact advance_idle self cache h
  · exact advance_wait self cache la h hw

/-- Witness of C9: an idle engine, and a lookahead ready at cycle 39 ticked at cycle 38. -/
theorem tick_noop_witness :
    advance_lookahead ⟨none, lru_table.empty⟩ ⟨38, false, 0, fun _ _ _ => true⟩ =
      some (⟨none, lru_table.empty⟩, []) ∧
    (38 < 39 ∧
      advance_lookahead ⟨some ⟨1920, 10, 3, 39⟩, lru_table.empty⟩
          ⟨38, false, 0, fun _ _ _ => true⟩ =
        some (⟨some ⟨1920, 10, 3, 39⟩, lru_table.empty⟩, [])) :=
  ⟨tick_noop ⟨none, lru_table.empty⟩ ⟨38, false, 0, fun _ _ _ => true⟩ (Or.inl rfl),
   by decide,
   tick_noop ⟨some ⟨1920, 10, 3, 39⟩, lru_table.empty⟩ ⟨38, false, 0, fun _ _ _ => true⟩
     (Or.inr ⟨⟨1920, 10, 3, 39⟩, rfl, by decide⟩)⟩

/-- C10. Accepted-issuance step: for an armed lookahead `(p, s, d, r)` with `d > 0` and a
tick at a cycle `now ≥ r` that passes the page check, exactly one request is sent to the
host, with address `c = p + s * BLOCK_SIZE` (modulo `2^64`), fill hint true iff the MSHR
occupancy ratio is below one half, and metadata 0; the table is untouched; and if the
host accepts, the lookahead becomes `(c, s, d - 1, now + PREFETCH_DELAY)` (a 64-bit sum)
when `d - 1 > 0`, and the engine is idle when `d - 1 = 0`. -/
theorem accepted_issuance (self : TSKID_Prefetcher) (cache : CACHE) (la : lookahead_entry)
    (h : self.active_lookahead = some la) (hready : la.issue_cycle ≤ cache.current_cycle)
    (hdeg : 0 < la.degree)
    (hpage : cache.virtual_prefetch = true ∨
      toUInt64 (la.address + la.stride * BLOCK_SIZE) >>> LOG2_PAGE_SIZE
        = la.address >>> LOG2_PAGE_SIZE) :
    ∃ st, advance_lookahead self cache =
        some (st, [⟨toUInt64 (la.address + la.stride * BLOCK_SIZE),
          decide (cache.get_mshr_occupancy_ratio < 1 / 2), 0⟩]) ∧
      st.table = self.table ∧
      (cache.prefetch_line (toUInt64 (la.address + la.stride * BLOCK_SIZE))
          (decide (cache.get_mshr_occupancy_ratio < 1 / 2)) 0 = true →
        (la.degree - 1 > 0 →
          st.active_lookahead = some ⟨toUInt64 (la.address + la.stride * BLOCK_SIZE),
            la.stride, la.degree - 1, (cache.current_cycle + PREFETCH_DELAY) % 2 ^ 64⟩) ∧
        (la.degree - 1 = 0 → st.active_lookahead = none)) := by
  rw [advance_ready self cache la h hready hdeg, if_pos hpage]
  refine ⟨_, rfl, rfl, ?_⟩
  intro hacc
  simp only [hacc, if_true]
  refine ⟨?_, ?_⟩
  · intro hd
    have : ¬ la.degree - 1 = 0 := by omega
    simp only [this, if_false]
  · intro hd
    simp only [hd, if_true]

/-- Witness of C10: the first issuance of the lookahead `(1920, 10, 3, 39)` at cycle 39. -/
theorem accepted_issuance_witness :
    ∃ st, advance_lookahead ⟨some ⟨1920, 10, 3, 39⟩, lru_table.empty⟩
          ⟨39, false, 0, fun _ _ _ => true⟩ =
        some (st, [⟨2560, decide ((0 : ℚ) < 1 / 2), 0⟩]) ∧
      st.table = lru_table.empty ∧
      st.active_lookahead = some ⟨2560, 10, 2, 69⟩ := by
  obtain ⟨st, h1, h2, h3⟩ :=
    accepted_issuance ⟨some ⟨1920, 10, 3, 39⟩, lru_table.empty⟩
      ⟨39, false, 0, fun _ _ _ => true⟩ ⟨1920, 10, 3, 39⟩ rfl (by decide) (by decide)
      (Or.inr (by decide))
  exact ⟨st, h1, h2, (h3 rfl).1 (by decide)⟩

/-! ## Runs of ticks -/

theorem cycles_append (host : Nat → CACHE) (a b : Nat) :
    ∀ start, cycles host start (a + b) = cycles host start a ++ cycles host (start + a) b := by
  induction a with
  | zero => intro start; simp [cycles]
  | succ a ih =>
    intro start
    rw [Nat.add_right_comm a 1 b]
    simp only [cycles, List.cons_append]
    rw [ih (start + 1), Nat.add_assoc start 1 a, Nat.add_comm 1 a]

theorem mem_cycles (host : Nat → CACHE) (c : CACHE) (n : Nat) :
    ∀ start, c ∈ cycles host start n → ∃ k, start ≤ k ∧ k < start + n ∧ c = host k := by
  induction n with
  | zero => intro start h; simp [cycles] at h
  | succ n ih =>
    intro start h
    simp only [cycles, List.mem_cons] at h
    rcases h with h | h
    · exact ⟨start, le_refl _, by omega, h⟩
    · obtain ⟨k, h1, h2, h3⟩ := ih (start + 1) h
      exact ⟨k, by omega, by omega, h3⟩

theorem tick_all_append (l1 l2 : List CACHE) :
    ∀ (self s1 : TSKID_Prefetcher) (tr1 : List (Nat × prefetch_request)),
      tick_all self l1 = some (s1, tr1) →
      tick_all self (l1 ++ l2) = (tick_all s1 l2).map (fun r => (r.1, tr1 ++ r.2)) := by
  induction l1 with
  | nil =>
    intro self s1 tr1 h
    simp only [tick_all, Option.some.injEq, Prod.mk.injEq] at h
    obtain ⟨h1, h2⟩ := h
    subst h1 h2
    rw [List.nil_append]
    cases h2 : tick_all self l2 <;> simp
  | cons c cs ih =>
    intro self s1 tr1 h
    simp only [tick_all, List.cons_append] at h ⊢
    cases hadv : advance_lookahead self c with
    | none => simp [hadv] at h
    | some r =>
      obtain ⟨s0, reqs⟩ := r
      simp only [hadv] at h ⊢
      cases hrest : tick_all s0 cs with
      | none => simp [hrest] at h
      | some r2 =>
        obtain ⟨s2, tr2⟩ := r2
        simp only [hrest, Option.some.injEq, Prod.mk.injEq] at h
        obtain ⟨h1, h2⟩ := h
        subst h1 h2
        have ih2 := ih s0 s2 tr2 hrest
        simp only [List.append_eq, ih2]
        cases h2 : tick_all s2 l2 <;> simp

theorem tick_all_wait (la : lookahead_entry) (l : List CACHE) :
    ∀ (self : TSKID_Prefetcher), self.active_lookahead = some la →
      (∀ c ∈ l, c.current_cycle < la.issue_cycle) → tick_all self l = some (self, []) := by
  induction l with
  | nil => intro self _ _; rfl
  | cons c cs ih =>
    intro self h hw
    simp only [tick_all]
    rw [advance_wait self c la h (hw c (List.mem_cons_self _ _))]
    simp only
    rw [ih self h (fun x hx => hw x (List.mem_cons_of_mem _ hx))]
    rfl

theorem tick_all_idle (l : List CACHE) :
    ∀ (self : TSKID_Prefetcher), self.active_lookahead = none →
      tick_all self l = some (self, []) := by
  induction l with
  | nil => intro self _; rfl
  | cons c cs ih =>
    intro self h
    simp only [tick_all]
    rw [advance_idle self c h]
    simp only
    rw [ih self h]
    rfl

theorem wrap_step (a x : Int) (k : Int) :
    toUInt64 ((toUInt64 (a + k * x) : Nat) + x) = toUInt64 (a + (k + 1) * x) := by
  have h : (k + 1) * x = k * x + x := by ring
  rw [h]
  generalize k * x = y
  unfold toUInt64
  omega

theorem tick_all_phase (host : Nat → CACHE) (hcyc : ∀ k, (host k).current_cycle = k)
    (tbl : lru_table) (la : lookahead_entry) (start w : Nat)
    (hdeg : 0 < la.degree) (hr : la.issue_cycle = start + w)
    (hpage : (host (start + w)).virtual_prefetch = true ∨
      toUInt64 (la.address + la.stride * BLOCK_SIZE) >>> LOG2_PAGE_SIZE
        = la.address >>> LOG2_PAGE_SIZE)
    (hacc : ∀ k a f m, (host k).prefetch_line a f m = true) :
    tick_all ⟨some la, tbl⟩ (cycles host start (w + 1)) =
      some (⟨if la.degree - 1 = 0 then none
             else some ⟨toUInt64 (la.address + la.stride * BLOCK_SIZE), la.stride,
                    la.degree - 1, (start + w + PREFETCH_DELAY) % 2 ^ 64⟩, tbl⟩,
        [(start + w, ⟨toUInt64 (la.address + la.stride * BLOCK_SIZE),
          decide ((host (start + w)).get_mshr_occupancy_ratio < 1 / 2), 0⟩)]) := by
  have hwait : tick_all ⟨some la, tbl⟩ (cycles host start w) = some (⟨some la, tbl⟩, []) := by
    apply tick_all_wait la _ _ rfl
    intro c hc
    obtain ⟨k, _, h2, h3⟩ := mem_cycles host c w start hc
    rw [h3, hcyc k, hr]
    exact h2
  rw [cycles_append, tick_all_append _ _ _ _ _ hwait]
  have hready : la.issue_cycle ≤ (host (start + w)).current_cycle := by
    rw [hcyc, hr]
  simp only [cycles, tick_all]
  rw [advance_ready ⟨some la, tbl⟩ (host (start + w)) la rfl hready hdeg, if_pos hpage]
  simp only [hacc, if_true, hcyc, List.map_cons, List.map_nil, List.append_nil, Option.map_some',
    List.nil_append]

/-- C5. Degree exhaustion: a lookahead armed at cycle `T` with byte address `A` and stride
`s` (so with degree `PREFETCH_DEGREE` and ready cycle `T + PREFETCH_DELAY`), ticked once
per cycle at `T+1, T+2, ..., T+n` (`n` at least `3 * PREFETCH_DELAY`, the cycles being
64-bit values) by a host that accepts every request and with the page check passing each
time, sends exactly three requests, at the cycles `T+D`, `T+2D`, `T+3D` and for the
addresses `A + s*64`, `A + 2*s*64`, `A + 3*s*64` (modulo `2^64`), sends no request at any
other cycle, and is idle from the tick at `T+3D` on. -/
theorem degree_exhaustion (tbl : lru_table) (host : Nat → CACHE) (T A : Nat) (s : Int)
    (n : Nat)
    (hT : T + 3 * PREFETCH_DELAY < 2 ^ 64)
    (hcyc : ∀ k, (host k).current_cycle = k)
    (hacc : ∀ k a f m, (host k).prefetch_line a f m = true)
    (hp1 : (host (T + PREFETCH_DELAY)).virtual_prefetch = true ∨
      toUInt64 (A + s * BLOCK_SIZE) >>> LOG2_PAGE_SIZE = A >>> LOG2_PAGE_SIZE)
    (hp2 : (host (T + 2 * PREFETCH_DELAY)).virtual_prefetch = true ∨
      toUInt64 (A + 2 * s * BLOCK_SIZE) >>> LOG2_PAGE_SIZE
        = toUInt64 (A + s * BLOCK_SIZE) >>> LOG2_PAGE_SIZE)
    (hp3 : (host (T + 3 * PREFETCH_DELAY)).virtual_prefetch = true ∨
      toUInt64 (A + 3 * s * BLOCK_SIZE) >>> LOG2_PAGE_SIZE
        = toUInt64 (A + 2 * s * BLOCK_SIZE) >>> LOG2_PAGE_SIZE)
    (hn : 3 * PREFETCH_DELAY ≤ n) :
    tick_all ⟨some ⟨A, s, PREFETCH_DEGREE, (T + PREFETCH_DELAY) % 2 ^ 64⟩, tbl⟩
        (cycles host (T + 1) n) =
      some (⟨none, tbl⟩,
        [(T + PREFETCH_DELAY, ⟨toUInt64 (A + s * BLOCK_SIZE),
            decide ((host (T + PREFETCH_DELAY)).get_mshr_occupancy_ratio < 1 / 2), 0⟩),
         (T + 2 * PREFETCH_DELAY, ⟨toUInt64 (A + 2 * s * BLOCK_SIZE),
            decide ((host (T + 2 * PREFETCH_DELAY)).get_mshr_occupancy_ratio < 1 / 2), 0⟩),
         (T + 3 * PREFETCH_DELAY, ⟨toUInt64 (A + 3 * s * BLOCK_SIZE),
            decide ((host (T + 3 * PREFETCH_DELAY)).get_mshr_occupancy_ratio < 1 / 2), 0⟩)]) := by
  unfold PREFETCH_DELAY at hT hp1 hp2 hp3 hn
  unfold PREFETCH_DELAY PREFETCH_DEGREE
  obtain ⟨m, rfl⟩ : ∃ m, n = 30 + (30 + (30 + m)) := ⟨n - 90, by omega⟩
  have e1 : (T + 30) % 2 ^ 64 = T + 1 + 29 := by omega
  have a2 : toUInt64 ((toUInt64 (A + s * BLOCK_SIZE) : Nat) + s * BLOCK_SIZE)
      = toUInt64 (A + 2 * s * BLOCK_SIZE) := by
    have := wrap_step A (s * BLOCK_SIZE) 1
    rw [one_mul] at this
    rw [this]
    congr 1
    ring
  have a3 : toUInt64 ((toUInt64 (A + 2 * s * BLOCK_SIZE) : Nat) + s * BLOCK_SIZE)
      = toUInt64 (A + 3 * s * BLOCK_SIZE) := by
    have := wrap_step A (s * BLOCK_SIZE) 2
    rw [mul_assoc 2 s, this]
    congr 1
    ring
  have ph1 := tick_all_phase host hcyc tbl ⟨A, s, 3, (T + 30) % 2 ^ 64⟩ (T + 1) 29
    (show (0 : Int) < 3 by decide) e1 (by rw [show T + 1 + 29 = T + 30 by omega]; exact hp1) hacc
  have ph2 := tick_all_phase host hcyc tbl
    ⟨toUInt64 (A + s * BLOCK_SIZE), s, 2, (T + 1 + 29 + 30) % 2 ^ 64⟩ (T + 1 + 30) 29
    (show (0 : Int) < 2 by decide) (by simp only; omega)
    (by rw [show T + 1 + 30 + 29 = T + 2 * 30 by omega]; simp only; rw [a2]; exact hp2) hacc
  have ph3 := tick_all_phase host hcyc tbl
    ⟨toUInt64 (A + 2 * s * BLOCK_SIZE), s, 1, (T + 1 + 30 + 29 + 30) % 2 ^ 64⟩
    (T + 1 + 30 + 30) 29
    (show (0 : Int) < 1 by decide) (by simp only; omega)
    (by rw [show T + 1 + 30 + 30 + 29 = T + 3 * 30 by omega]; simp only; rw [a3]; exact hp3) hacc
  have ph4 := tick_all_idle (cycles host (T + 1 + 30 + 30 + 30) m) ⟨none, tbl⟩ rfl
  simp only [PREFETCH_DELAY, a2, a3, show (3 : Int) - 1 = 2 by decide,
    show (2 : Int) - 1 = 1 by decide, show (1 : Int) - 1 = 0 by decide,
    show ¬ ((2 : Int) = 0) by decide, show ¬ ((1 : Int) = 0) by decide,
    if_true, if_false] at ph1 ph2 ph3
  rw [cycles_append, tick_all_append _ _ _ _ _ ph1, cycles_append,
    tick_all_append _ _ _ _ _ ph2, cycles_append, tick_all_append _ _ _ _ _ ph3, ph4]
  simp only [Option.map_some', List.append_nil, List.singleton_append, Option.some.injEq,
    Prod.mk.injEq, true_and]

/-- Witness of C5: the lookahead armed at cycle 9 on byte 1920 with stride 10, ticked at the
cycles 10 to 104, sends its three requests at the cycles 39, 69 and 99. -/
theorem degree_exhaustion_witness :
    tick_all ⟨some ⟨1920, 10, 3, 39⟩, lru_table.empty⟩
        (cycles (fun k => ⟨k, false, 0, fun _ _ _ => true⟩) 10 95) =
      some (⟨none, lru_table.empty⟩,
        [(39, ⟨2560, decide ((0 : ℚ) < 1 / 2), 0⟩),
         (69, ⟨3200, decide ((0 : ℚ) < 1 / 2), 0⟩),
         (99, ⟨3840, decide ((0 : ℚ) < 1 / 2), 0⟩)]) :=
  degree_exhaustion lru_table.empty (fun k => ⟨k, false, 0, fun _ _ _ => true⟩) 9 1920 10 95
    (by decide) (fun _ => rfl) (fun _ _ _ _ => rfl) (Or.inr (by decide)) (Or.inr (by decide))
    (Or.inr (by decide)) (by decide)

/-! ## Arming -/

theorem observe_slot_irrelevant (tbl : lru_table) (prev1 prev2 : Option lookahead_entry)
    (ip cl_addr : Nat) (cache : CACHE) :
    (observe ⟨prev1, tbl⟩ ip cl_addr cache).2 = (observe ⟨prev2, tbl⟩ ip cl_addr cache).2 ∧
    (observe ⟨prev1, tbl⟩ ip cl_addr cache).1.table
      = (observe ⟨prev2, tbl⟩ ip cl_addr cache).1.table := by
  cases hc : (tbl.check_hit ⟨ip, cl_addr, 0, 0⟩).1 with
  | none =>
    rw [observe_miss ⟨prev1, tbl⟩ ip cl_addr cache hc,
      observe_miss ⟨prev2, tbl⟩ ip cl_addr cache hc]
    exact ⟨rfl, rfl⟩
  | some found =>
    rw [observe_of_lookup ⟨prev1, tbl⟩ ip cl_addr cache found hc,
      observe_of_lookup ⟨prev2, tbl⟩ ip cl_addr cache found hc,
      observe_hit_table ⟨prev1, tbl⟩ ip cl_addr cache found hc,
      observe_hit_table ⟨prev2, tbl⟩ ip cl_addr cache found hc]
    exact ⟨rfl, rfl⟩

/-- C11. Replacement semantics of arming: whenever `observe(ip, line)` at cycle `now` arms
with stride `s`, the resulting lookahead is exactly (`line << LOG2_BLOCK_SIZE` as a 64-bit
value, `s`, `PREFETCH_DEGREE`, `now + PREFETCH_DELAY` as a 64-bit sum), whatever the
lookahead slot was before: two engine states with the same tracker table and any two
prior slots observe the same stride, confidence and arming decision and end with the same
lookahead. The stored address is the byte address of the triggering line itself
(`line * BLOCK_SIZE` for a line address below `2^58`), not advanced by a stride. -/
theorem replacement_semantics (tbl : lru_table) (prev1 prev2 : Option lookahead_entry)
    (ip cl_addr : Nat) (cache : CACHE) :
    (observe ⟨prev1, tbl⟩ ip cl_addr cache).2 = (observe ⟨prev2, tbl⟩ ip cl_addr cache).2 ∧
    ((observe ⟨prev1, tbl⟩ ip cl_addr cache).2.didArm = true →
      (initiate_lookahead ⟨prev1, tbl⟩ ip cl_addr cache).active_lookahead =
        some ⟨(cl_addr <<< LOG2_BLOCK_SIZE) % 2 ^ 64,
          (observe ⟨prev1, tbl⟩ ip cl_addr cache).2.stride, PREFETCH_DEGREE,
          (cache.current_cycle + PREFETCH_DELAY) % 2 ^ 64⟩ ∧
      (initiate_lookahead ⟨prev2, tbl⟩ ip cl_addr cache).active_lookahead =
        (initiate_lookahead ⟨prev1, tbl⟩ ip cl_addr cache).active_lookahead ∧
      (cl_addr < 2 ^ 58 →
        (cl_addr <<< LOG2_BLOCK_SIZE) % 2 ^ 64 = cl_addr * BLOCK_SIZE)) := by
  have hobs := (observe_slot_irrelevant tbl prev1 prev2 ip cl_addr cache).1
  refine ⟨hobs, ?_⟩
  intro harm
  have h1 := observe_slot ⟨prev1, tbl⟩ ip cl_addr cache
  have h2 := observe_slot ⟨prev2, tbl⟩ ip cl_addr cache
  rw [← hobs] at h2
  rw [if_pos harm] at h1 h2
  refine ⟨h1, ?_, ?_⟩
  · exact h2.trans h1.symm
  · intro hcl
    simp only [LOG2_BLOCK_SIZE, BLOCK_SIZE, Nat.shiftLeft_eq]
    omega

/-- Witness of C11: the third access of the stream 10, 20, 30 arms the same lookahead
`(1920, 10, 3, 39)` on an idle engine and over a pending lookahead. -/
theorem replacement_semantics_witness :
    (initiate_lookahead ⟨none, (observe_all {} [(256, 10, ⟨7, false, 0, fun _ _ _ => true⟩),
        (256, 20, ⟨8, false, 0, fun _ _ _ => true⟩)]).table⟩ 256 30
        ⟨9, false, 0, fun _ _ _ => true⟩).active_lookahead = some ⟨1920, 10, 3, 39⟩ ∧
    (initiate_lookahead ⟨some ⟨4032, 1, 2, 12⟩,
        (observe_all {} [(256, 10, ⟨7, false, 0, fun _ _ _ => true⟩),
        (256, 20, ⟨8, false, 0, fun _ _ _ => true⟩)]).table⟩ 256 30
        ⟨9, false, 0, fun _ _ _ => true⟩).active_lookahead =
      (initiate_lookahead ⟨none, (observe_all {} [(256, 10, ⟨7, false, 0, fun _ _ _ => true⟩),
        (256, 20, ⟨8, false, 0, fun _ _ _ => true⟩)]).table⟩ 256 30
        ⟨9, false, 0, fun _ _ _ => true⟩).active_lookahead :=
  ⟨((replacement_semantics (observe_all {} [(256, 10, ⟨7, false, 0, fun _ _ _ => true⟩),
        (256, 20, ⟨8, false, 0, fun _ _ _ => true⟩)]).table none (some ⟨4032, 1, 2, 12⟩)
        256 30 ⟨9, false, 0, fun _ _ _ => true⟩).2 (by decide)).1,
   ((replacement_semantics (observe_all {} [(256, 10, ⟨7, false, 0, fun _ _ _ => true⟩),
        (256, 20, ⟨8, false, 0, fun _ _ _ => true⟩)]).table none (some ⟨4032, 1, 2, 12⟩)
        256 30 ⟨9, false, 0, fun _ _ _ => true⟩).2 (by decide)).2.1⟩

/-! ## Recency order of a set -/

theorem set_idx_eq (e : tracker_entry) : lru_table.set_idx e = ip_set e.ip := rfl

theorem check_hit_sets (t : lru_table) (p : tracker_entry) (i : Fin TRACKER_SETS) :
    (t.check_hit p).2.sets i =
      match (t.sets (ip_set p.ip)).find? (fun x => x.ip == p.ip) with
      | some hit =>
        if i = ip_set p.ip then
          hit :: (t.sets (ip_set p.ip)).eraseP (fun x => x.ip == p.ip)
        else t.sets i
      | none => t.sets i := by
  unfold lru_table.check_hit
  simp only [set_idx_eq, tracker_entry.tag]
  cases hf : (t.sets (ip_set p.ip)).find? (fun x => x.ip == p.ip) with
  | none => simp only
  | some hit =>
    simp only [Function.update_apply]

theorem observe_table (self : TSKID_Prefetcher) (ip cl_addr : Nat) (cache : CACHE) :
    (observe self ip cl_addr cache).1.table =
      (self.table.check_hit ⟨ip, cl_addr, 0, 0⟩).2.fill
        ⟨ip, cl_addr, (observe self ip cl_addr cache).2.stride,
          (observe self ip cl_addr cache).2.confidence⟩ := by
  cases hc : (self.table.check_hit ⟨ip, cl_addr, 0, 0⟩).1 with
  | none =>
    rw [observe_miss self ip cl_addr cache hc]
  | some found =>
    rw [observe_hit_table self ip cl_addr cache found hc,
      observe_hit_stride self ip cl_addr cache found hc,
      observe_hit_confidence self ip cl_addr cache found hc]

theorem observe_other_sets (self : TSKID_Prefetcher) (ip cl_addr : Nat) (cache : CACHE)
    (i : Fin TRACKER_SETS) (hi : i ≠ ip_set ip) :
    (observe self ip cl_addr cache).1.table.sets i = self.table.sets i := by
  rw [observe_table, fill_sets, set_idx_eq, if_neg hi, check_hit_sets]
  split
  · rw [if_neg hi]
  · rfl

theorem observe_own_set (self : TSKID_Prefetcher) (ip cl_addr : Nat) (cache : CACHE) :
    (observe self ip cl_addr cache).1.table.sets (ip_set ip) =
      ⟨ip, cl_addr, (observe self ip cl_addr cache).2.stride,
          (observe self ip cl_addr cache).2.confidence⟩ ::
        (if ((self.table.sets (ip_set ip)).any (fun x => x.ip == ip)) = true then
          (self.table.sets (ip_set ip)).eraseP (fun x => x.ip == ip)
        else (self.table.sets (ip_set ip)).take (TRACKER_WAYS - 1)) := by
  rw [observe_table, fill_sets, set_idx_eq, if_pos rfl, check_hit_sets]
  simp only [tracker_entry.tag]
  cases hf : (self.table.sets (ip_set ip)).find? (fun x => x.ip == ip) with
  | none =>
    have hany : ((self.table.sets (ip_set ip)).any (fun x => x.ip == ip)) = false := by
      rw [List.any_eq_false]
      intro x hx
      have := List.find?_eq_none.1 hf x hx
      simpa using this
    simp only [hany, Bool.false_eq_true, if_false]
  | some hit =>
    have hmem := List.mem_of_find?_eq_some hf
    have htag := List.find?_some hf
    have hany : ((self.table.sets (ip_set ip)).any (fun x => x.ip == ip)) = true :=
      List.any_eq_true.2 ⟨hit, hmem, htag⟩
    simp only [if_true, hany, List.any_cons, htag, Bool.true_or]
    exact congrArg _
      (List.eraseP_cons_of_pos (p := fun (x : tracker_entry) => x.ip == ip) htag)

theorem ip_set_eq_of_mod (a b : Nat) (h : a % TRACKER_SETS = b % TRACKER_SETS) :
    ip_set a = ip_set b := by
  apply Fin.ext
  simpa [ip_set, lru_table.set_idx, tracker_entry.index] using h

theorem observe_miss_obs (self : TSKID_Prefetcher) (ip cl_addr : Nat) (cache : CACHE)
    (h : (self.table.sets (ip_set ip)).find? (fun x => x.ip == ip) = none) :
    (observe self ip cl_addr cache).2 = ⟨0, 0, false⟩ := by
  have hc : (self.table.check_hit ⟨ip, cl_addr, 0, 0⟩).1 = none := by
    rw [check_hit_fst, set_idx_eq]
    exact h
  rw [observe_miss self ip cl_addr cache hc]

/-- C12. LRU capacity. Every `observe(ip, line)` touches the entry of `ip`: it becomes the
first entry of the recency list of its set, the other entries keeping their order, and
on an insertion only the first `TRACKER_WAYS - 1` of them are kept. Hence, when the set
of `ip` holds four entries `e1, e2, e3, e4` (from the most to the least recently touched)
of four distinct ips of that set, all different from `ip`: the call is a cold miss, it
evicts exactly `e4` and keeps `e1, e2, e3`; the next `observe` of the ip of `e4` is a cold
miss again (stride 0, confidence 0, no arm); and the three survivors still hit with their
stored last address, stride and confidence. -/
theorem lru_capacity (self : TSKID_Prefetcher) (ip cl_addr : Nat) (cache : CACHE) :
    (initiate_lookahead self ip cl_addr cache).table.sets (ip_set ip) =
      ⟨ip, cl_addr, (observe self ip cl_addr cache).2.stride,
          (observe self ip cl_addr cache).2.confidence⟩ ::
        (if ((self.table.sets (ip_set ip)).any (fun x => x.ip == ip)) = true then
          (self.table.sets (ip_set ip)).eraseP (fun x => x.ip == ip)
        else (self.table.sets (ip_set ip)).take (TRACKER_WAYS - 1)) ∧
    ∀ e1 e2 e3 e4 : tracker_entry,
      self.table.sets (ip_set ip) = [e1, e2, e3, e4] →
      (∀ e ∈ [e1, e2, e3, e4], e.ip % TRACKER_SETS = ip % TRACKER_SETS) →
      [ip, e1.ip, e2.ip, e3.ip, e4.ip].Nodup →
        (observe self ip cl_addr cache).2 = ⟨0, 0, false⟩ ∧
        (initiate_lookahead self ip cl_addr cache).table.sets (ip_set ip)
          = [⟨ip, cl_addr, 0, 0⟩, e1, e2, e3] ∧
        (∀ (cl2 : Nat) (cache2 : CACHE),
          (observe (initiate_lookahead self ip cl_addr cache) e4.ip cl2 cache2).2
            = ⟨0, 0, false⟩) ∧
        (∀ e ∈ [e1, e2, e3], ∀ (a : Nat) (s c : Int),
          ((initiate_lookahead self ip cl_addr cache).table.check_hit ⟨e.ip, a, s, c⟩).1
            = some e) := by
  refine ⟨observe_own_set self ip cl_addr cache, ?_⟩
  intro e1 e2 e3 e4 hset hmod hnd
  simp only [List.nodup_cons, List.mem_cons, List.mem_singleton, not_or, List.not_mem_nil,
    not_false_eq_true, List.nodup_nil, and_true] at hnd
  obtain ⟨⟨h01, h02, h03, h04⟩, ⟨h12, h13, h14⟩, ⟨h23, h24⟩, h34⟩ := hnd
  have hs1 := ip_set_eq_of_mod _ _ (hmod e1 (by simp))
  have hs2 := ip_set_eq_of_mod _ _ (hmod e2 (by simp))
  have hs3 := ip_set_eq_of_mod _ _ (hmod e3 (by simp))
  have hs4 := ip_set_eq_of_mod _ _ (hmod e4 (by simp))
  have hfind : (self.table.sets (ip_set ip)).find? (fun x => x.ip == ip) = none := by
    rw [hset]
    simp [Ne.symm h01, Ne.symm h02, Ne.symm h03, Ne.symm h04]
  have hobs := observe_miss_obs self ip cl_addr cache hfind
  have hnew : (initiate_lookahead self ip cl_addr cache).table.sets (ip_set ip)
      = [⟨ip, cl_addr, 0, 0⟩, e1, e2, e3] := by
    unfold initiate_lookahead
    rw [observe_own_set, hobs, hset]
    simp [Ne.symm h01, Ne.symm h02, Ne.symm h03, Ne.symm h04]
  refine ⟨hobs, hnew, ?_, ?_⟩
  · intro cl2 cache2
    apply observe_miss_obs
    rw [hs4, hnew]
    simp [h04, h14, h24, h34]
  · intro e he a s c
    rw [check_hit_fst, set_idx_eq]
    simp only [tracker_entry.tag]
    simp only [List.mem_cons, List.mem_singleton, List.not_mem_nil, or_false] at he
    rcases he with rfl | rfl | rfl
    · rw [hs1, hnew]
      simp [h01]
    · rw [hs2, hnew]
      simp [h02, h12]
    · rw [hs3, hnew]
      simp [h03, h13, h23]

/-- Witness of C12: the ips 0, 256, 512, 768 of set 0 are observed, ip 0 is touched again,
and the fifth ip 1024 then evicts the entry of ip 256, the least recently touched one. -/
theorem lru_capacity_witness :
    (observe_all {} [(0, 1, ⟨1, false, 0, fun _ _ _ => true⟩),
        (256, 2, ⟨2, false, 0, fun _ _ _ => true⟩), (512, 3, ⟨3, false, 0, fun _ _ _ => true⟩),
        (768, 4, ⟨4, false, 0, fun _ _ _ => true⟩),
        (0, 5, ⟨5, false, 0, fun _ _ _ => true⟩)]).table.sets (ip_set 1024) =
      [⟨0, 5, 4, 0⟩, ⟨768, 4, 0, 0⟩, ⟨512, 3, 0, 0⟩, ⟨256, 2, 0, 0⟩] ∧
    (initiate_lookahead (observe_all {} [(0, 1, ⟨1, false, 0, fun _ _ _ => true⟩),
        (256, 2, ⟨2, false, 0, fun _ _ _ => true⟩), (512, 3, ⟨3, false, 0, fun _ _ _ => true⟩),
        (768, 4, ⟨4, false, 0, fun _ _ _ => true⟩),
        (0, 5, ⟨5, false, 0, fun _ _ _ => true⟩)]) 1024 6
        ⟨6, false, 0, fun _ _ _ => true⟩).table.sets (ip_set 1024) =
      [⟨1024, 6, 0, 0⟩, ⟨0, 5, 4, 0⟩, ⟨768, 4, 0, 0⟩, ⟨512, 3, 0, 0⟩] ∧
    (observe (initiate_lookahead (observe_all {} [(0, 1, ⟨1, false, 0, fun _ _ _ => true⟩),
        (256, 2, ⟨2, false, 0, fun _ _ _ => true⟩), (512, 3, ⟨3, false, 0, fun _ _ _ => true⟩),
        (768, 4, ⟨4, false, 0, fun _ _ _ => true⟩),
        (0, 5, ⟨5, false, 0, fun _ _ _ => true⟩)]) 1024 6
        ⟨6, false, 0, fun _ _ _ => true⟩) 256 3 ⟨7, false, 0, fun _ _ _ => true⟩).2
      = ⟨0, 0, false⟩ :=
  ⟨by decide,
   ((lru_capacity (observe_all {} [(0, 1, ⟨1, false, 0, fun _ _ _ => true⟩),
        (256, 2, ⟨2, false, 0, fun _ _ _ => true⟩), (512, 3, ⟨3, false, 0, fun _ _ _ => true⟩),
        (768, 4, ⟨4, false, 0, fun _ _ _ => true⟩),
        (0, 5, ⟨5, false, 0, fun _ _ _ => true⟩)]) 1024 6
        ⟨6, false, 0, fun _ _ _ => true⟩).2
      ⟨0, 5, 4, 0⟩ ⟨768, 4, 0, 0⟩ ⟨512, 3, 0, 0⟩ ⟨256, 2, 0, 0⟩
      (by decide) (by decide) (by decide)).2.1,
   ((lru_capacity (observe_all {} [(0, 1, ⟨1, false, 0, fun _ _ _ => true⟩),
        (256, 2, ⟨2, false, 0, fun _ _ _ => true⟩), (512, 3, ⟨3, false, 0, fun _ _ _ => true⟩),
        (768, 4, ⟨4, false, 0, fun _ _ _ => true⟩),
        (0, 5, ⟨5, false, 0, fun _ _ _ => true⟩)]) 1024 6
        ⟨6, false, 0, fun _ _ _ => true⟩).2
      ⟨0, 5, 4, 0⟩ ⟨768, 4, 0, 0⟩ ⟨512, 3, 0, 0⟩ ⟨256, 2, 0, 0⟩
      (by decide) (by decide) (by decide)).2.2.1 3 ⟨7, false, 0, fun _ _ _ => true⟩⟩

/-! ## Separation of the tracker and the lookahead engine -/

theorem advance_none (self : TSKID_Prefetcher) (cache : CACHE) (la : lookahead_entry)
    (h : self.active_lookahead = some la) (hready : la.issue_cycle ≤ cache.current_cycle)
    (hdeg : ¬ 0 < la.degree) : advance_lookahead self cache = none := by
  unfold advance_lookahead
  rw [h]
  simp only [hready, if_true, gt_iff_lt, hdeg, if_false]

theorem advance_table (self : TSKID_Prefetcher) (cache : CACHE) (st : TSKID_Prefetcher)
    (reqs : List prefetch_request) (h : advance_lookahead self cache = some (st, reqs)) :
    st.table = self.table := by
  cases hla : self.active_lookahead with
  | none =>
    rw [advance_idle self cache hla] at h
    rw [← (Prod.mk.inj (Option.some.inj h)).1]
  | some la =>
    by_cases hready : la.issue_cycle ≤ cache.current_cycle
    · by_cases hdeg : 0 < la.degree
      · rw [advance_ready self cache la hla hready hdeg] at h
        split at h
        · rw [← (Prod.mk.inj (Option.some.inj h)).1]
        · rw [← (Prod.mk.inj (Option.some.inj h)).1]
      · rw [advance_none self cache la hla hready hdeg] at h
        exact absurd h (by simp)
    · rw [advance_wait self cache la hla (not_le.1 hready)] at h
      rw [← (Prod.mk.inj (Option.some.inj h)).1]

theorem filter_eraseP (ip : Nat) (l : List tracker_entry) :
    (l.eraseP (fun x => x.ip == ip)).filter (fun x => x.ip != ip)
      = l.filter (fun x => x.ip != ip) := by
  induction l with
  | nil => rfl
  | cons a l ih =>
    by_cases h : a.ip = ip
    · have hp : (fun (x : tracker_entry) => x.ip == ip) a = true := by simpa using h
      rw [List.eraseP_cons_of_pos (p := fun (x : tracker_entry) => x.ip == ip) hp]
      simp [h]
    · have hp : ¬ (fun (x : tracker_entry) => x.ip == ip) a = true := by simpa using h
      rw [List.eraseP_cons_of_neg (p := fun (x : tracker_entry) => x.ip == ip) hp]
      simp [h, ih]

/-- C13. Component separation: `advance_lookahead` never modifies the tracker table,
whatever the state and the answer of the host; `observe(ip, line)` leaves every set other
than the set of `ip` exactly as it was; and when `ip` is already tracked, the entries of
the other ips are, in every set, the same entries in the same order after the call as
before it (none removed, none altered, none added). -/
theorem component_separation (self : TSKID_Prefetcher) (cache : CACHE) :
    (∀ (st : TSKID_Prefetcher) (reqs : List prefetch_request),
      advance_lookahead self cache = some (st, reqs) → st.table = self.table) ∧
    (∀ (ip cl_addr : Nat) (i : Fin TRACKER_SETS), i ≠ ip_set ip →
      (initiate_lookahead self ip cl_addr cache).table.sets i = self.table.sets i) ∧
    (∀ (ip cl_addr : Nat) (found : tracker_entry),
      (self.table.check_hit ⟨ip, cl_addr, 0, 0⟩).1 = some found →
      ∀ i : Fin TRACKER_SETS,
        ((initiate_lookahead self ip cl_addr cache).table.sets i).filter (fun e => e.ip != ip)
          = (self.table.sets i).filter (fun e => e.ip != ip)) := by
  refine ⟨advance_table self cache, ?_, ?_⟩
  · intro ip cl_addr i hi
    exact observe_other_sets self ip cl_addr cache i hi
  · intro ip cl_addr found hfound i
    by_cases hi : i = ip_set ip
    · subst hi
      have hany : ((self.table.sets (ip_set ip)).any (fun x => x.ip == ip)) = true := by
        rw [check_hit_fst, set_idx_eq] at hfound
        simp only [tracker_entry.tag] at hfound
        exact List.any_eq_true.2 ⟨found, List.mem_of_find?_eq_some hfound,
          List.find?_some (p := fun (x : tracker_entry) => x.ip == ip) hfound⟩
      unfold initiate_lookahead
      rw [observe_own_set, if_pos hany]
      simp only [List.filter_cons, bne_self_eq_false, Bool.false_eq_true, if_false]
      exact filter_eraseP ip _
    · unfold initiate_lookahead
      rw [observe_other_sets self ip cl_addr cache i hi]

/-- Witness of C13: a tick that issues a request keeps the table, and re-observing ip 0 in
the set `[0, 768, 512, 256]` keeps the three other entries in their order. -/
theorem component_separation_witness :
    (∀ (st : TSKID_Prefetcher) (reqs : List prefetch_request),
      advance_lookahead ⟨some ⟨1920, 10, 3, 39⟩, lru_table.empty⟩
        ⟨39, false, 0, fun _ _ _ => true⟩ = some (st, reqs) → st.table = lru_table.empty) ∧
    ((initiate_lookahead (observe_all {} [(0, 1, ⟨1, false, 0, fun _ _ _ => true⟩),
        (256, 2, ⟨2, false, 0, fun _ _ _ => true⟩), (512, 3, ⟨3, false, 0, fun _ _ _ => true⟩),
        (768, 4, ⟨4, false, 0, fun _ _ _ => true⟩)]) 0 5
        ⟨5, false, 0, fun _ _ _ => true⟩).table.sets 0).filter (fun e => e.ip != 0) =
      [⟨768, 4, 0, 0⟩, ⟨512, 3, 0, 0⟩, ⟨256, 2, 0, 0⟩] :=
  ⟨(component_separation ⟨some ⟨1920, 10, 3, 39⟩, lru_table.empty⟩
      ⟨39, false, 0, fun _ _ _ => true⟩).1,
   ((component_separation (observe_all {} [(0, 1, ⟨1, false, 0, fun _ _ _ => true⟩),
        (256, 2, ⟨2, false, 0, fun _ _ _ => true⟩), (512, 3, ⟨3, false, 0, fun _ _ _ => true⟩),
        (768, 4, ⟨4, false, 0, fun _ _ _ => true⟩)]) ⟨5, false, 0, fun _ _ _ => true⟩).2.2
      0 5 ⟨0, 1, 0, 0⟩ (by decide) 0).trans (by decide)⟩

/-! ## Host hooks -/

/-- C14. Host hooks pass the metadata through: `prefetcher_cache_operate` performs
`observe(ip, addr >> LOG2_BLOCK_SIZE)` on the engine and returns `metadata_in` unchanged,
so that two byte addresses of the same cache line are observed as the same line address;
`prefetcher_cache_fill` returns `metadata_in` unchanged and leaves the engine state as it
is. -/
theorem hooks_pass_metadata (self : TSKID_Prefetcher) (cache : CACHE) (addr ip : Nat)
    (cache_hit : Nat) (useful_prefetch : Bool) (type metadata_in : Nat) :
    prefetcher_cache_operate self cache addr ip cache_hit useful_prefetch type metadata_in =
      ((observe self ip (addr >>> LOG2_BLOCK_SIZE) cache).1, metadata_in) ∧
    (∀ addr2 : Nat, addr2 / BLOCK_SIZE = addr / BLOCK_SIZE →
      prefetcher_cache_operate self cache addr2 ip cache_hit useful_prefetch type metadata_in
        = prefetcher_cache_operate self cache addr ip cache_hit useful_prefetch type
            metadata_in) ∧
    (∀ set way prefetch evicted_addr : Nat,
      prefetcher_cache_fill self cache addr set way prefetch evicted_addr metadata_in
        = (self, metadata_in)) := by
  refine ⟨rfl, ?_, fun _ _ _ _ => rfl⟩
  intro addr2 h
  have hl : addr2 >>> LOG2_BLOCK_SIZE = addr >>> LOG2_BLOCK_SIZE := by
    simp only [Nat.shiftRight_eq_div_pow]
    exact h
  unfold prefetcher_cache_operate
  rw [hl]

/-- Witness of C14: the bytes 640 and 650 lie in line 10 and are observed alike. -/
theorem hooks_pass_metadata_witness :
    650 / BLOCK_SIZE = 640 / BLOCK_SIZE ∧
    prefetcher_cache_operate {} ⟨7, false, 0, fun _ _ _ => true⟩ 650 256 1 false 0 42
      = prefetcher_cache_operate {} ⟨7, false, 0, fun _ _ _ => true⟩ 640 256 1 false 0 42 ∧
    (prefetcher_cache_operate {} ⟨7, false, 0, fun _ _ _ => true⟩ 640 256 1 false 0 42).2
      = 42 :=
  ⟨by decide,
   (hooks_pass_metadata {} ⟨7, false, 0, fun _ _ _ => true⟩ 640 256 1 false 0 42).2.1 650
     (by decide),
   congrArg Prod.snd
     (hooks_pass_metadata {} ⟨7, false, 0, fun _ _ _ => true⟩ 640 256 1 false 0 42).1⟩

/-! ## Runs of host calls -/

theorem run_snoc (l : List host_call) (c : host_call) :
    run (l ++ [c]) = (run l).bind (fun s => exec s c) := by
  unfold run
  rw [List.foldlM_append]
  cases List.foldlM exec (({}, []) : TSKID_Prefetcher × List log_entry) l with
  | none => rfl
  | some s =>
    simp only [Option.bind_eq_bind, Option.some_bind, List.foldlM_cons, List.foldlM_nil,
      Option.pure_def, Option.bind_some]

theorem exec_cache_operate (s : TSKID_Prefetcher × List log_entry) (cache : CACHE)
    (addr ip cache_hit : Nat) (useful_prefetch : Bool) (type metadata_in : Nat) :
    exec s (.cache_operate cache addr ip cache_hit useful_prefetch type metadata_in) =
      some ((observe s.1 ip (addr >>> LOG2_BLOCK_SIZE) cache).1,
        if (observe s.1 ip (addr >>> LOG2_BLOCK_SIZE) cache).2.didArm = true then
          s.2 ++ [.armed cache.current_cycle
            (((addr >>> LOG2_BLOCK_SIZE) <<< LOG2_BLOCK_SIZE) % 2 ^ 64)]
        else s.2) := by
  have hslot := observe_slot s.1 ip (addr >>> LOG2_BLOCK_SIZE) cache
  simp only [exec, prefetcher_cache_operate, initiate_lookahead]
  by_cases harm : (observe s.1 ip (addr >>> LOG2_BLOCK_SIZE) cache).2.didArm = true
  · rw [if_pos harm] at hslot
    rw [if_pos harm, if_pos harm, hslot]
  · rw [if_neg harm, if_neg harm]

theorem exec_cycle_operate (s : TSKID_Prefetcher × List log_entry) (cache : CACHE) :
    exec s (.cycle_operate cache) =
      (advance_lookahead s.1 cache).map (fun r =>
        (r.1, s.2 ++ r.2.map (fun q => .issued cache.current_cycle q
          (cache.prefetch_line q.pf_addr q.fill_this_level q.prefetch_metadata)))) := by
  simp only [exec, prefetcher_cycle_operate]
  cases advance_lookahead s.1 cache <;> rfl

theorem exec_cache_fill (s : TSKID_Prefetcher × List log_entry) (cache : CACHE)
    (addr set way prefetch evicted_addr metadata_in : Nat) :
    exec s (.cache_fill cache addr set way prefetch evicted_addr metadata_in) = some s := rfl

theorem observe_degree_ok (self : TSKID_Prefetcher) (ip cl_addr : Nat) (cache : CACHE)
    (h : degree_ok self) : degree_ok (observe self ip cl_addr cache).1 := by
  intro la hla
  rw [observe_slot] at hla
  split at hla
  · rw [← Option.some.inj hla]
    exact ⟨show (1 : Int) ≤ PREFETCH_DEGREE by decide, le_refl _⟩
  · exact h la hla

theorem advance_degree_ok (self : TSKID_Prefetcher) (cache : CACHE) (h : degree_ok self) :
    ∃ st reqs, advance_lookahead self cache = some (st, reqs) ∧ degree_ok st := by
  cases hla : self.active_lookahead with
  | none =>
    exact ⟨self, [], advance_idle self cache hla, h⟩
  | some la =>
    have hd := h la hla
    by_cases hready : la.issue_cycle ≤ cache.current_cycle
    · rw [advance_ready self cache la hla hready (by omega)]
      split
      · refine ⟨_, _, rfl, ?_⟩
        intro l hl
        simp only at hl
        split at hl
        · split at hl
          · exact absurd hl (by simp)
          · rw [← Option.some.inj hl]
            simp only
            omega
        · rw [← Option.some.inj hl]
          exact hd
      · refine ⟨_, _, rfl, ?_⟩
        intro l hl
        exact absurd hl (by simp)
    · exact ⟨self, [], advance_wait self cache la hla (not_le.1 hready), h⟩

theorem exec_degree_ok (s : TSKID_Prefetcher × List log_entry) (c : host_call)
    (h : degree_ok s.1) : ∃ s2, exec s c = some s2 ∧ degree_ok s2.1 := by
  cases c with
  | cache_operate cache addr ip cache_hit useful_prefetch type metadata_in =>
    rw [exec_cache_operate]
    exact ⟨_, rfl, observe_degree_ok _ _ _ _ h⟩
  | cycle_operate cache =>
    obtain ⟨st, reqs, hadv, hok⟩ := advance_degree_ok s.1 cache h
    rw [exec_cycle_operate, hadv]
    exact ⟨_, rfl, hok⟩
  | cache_fill cache addr set way prefetch evicted_addr metadata_in =>
    exact ⟨s, rfl, h⟩

/-- Induction over runs: a property of the calls made so far and of the state and log
reached, true initially and kept by every call that respects the condition `Q` on the
calls, holds after every run that respects `Q`; and every such run returns. -/
theorem run_induction (Q : List host_call → Prop)
    (P : List host_call → TSKID_Prefetcher × List log_entry → Prop)
    (hQ : ∀ l c, Q (l ++ [c]) → Q l)
    (h0 : P [] ({}, []))
    (hstep : ∀ l c s s2, Q (l ++ [c]) → P l s → degree_ok s.1 → exec s c = some s2 →
      P (l ++ [c]) s2) :
    ∀ calls, Q calls → ∃ s, run calls = some s ∧ degree_ok s.1 ∧ P calls s := by
  intro calls
  induction calls using List.reverseRecOn with
  | nil =>
    intro _
    refine ⟨({}, []), rfl, ?_, h0⟩
    intro la hla
    exact absurd hla (by simp)
  | append_singleton l c ih =>
    intro hq
    obtain ⟨s, hrun, hdeg, hP⟩ := ih (hQ l c hq)
    obtain ⟨s2, hexec, hdeg2⟩ := exec_degree_ok s c hdeg
    refine ⟨s2, ?_, hdeg2, hstep l c s s2 hq hP hdeg hexec⟩
    rw [run_snoc, hrun]
    exact hexec

/-- C15. The assertion `degree > 0` of `advance_lookahead` never fails: every run of host
calls from the initial state (any interleaving of accesses, ticks and fills, any ips,
addresses, cycles, answers of the host and virtual flags) returns, and in the state it
reaches an active lookahead has a degree `d` with `1 ≤ d ≤ PREFETCH_DEGREE`; a lookahead
of degree 0 is never left stored. -/
theorem degree_positive (calls : List host_call) :
    ∃ st log, run calls = some (st, log) ∧
      (∀ la, st.active_lookahead = some la → 1 ≤ la.degree ∧ la.degree ≤ PREFETCH_DEGREE) ∧
      (∀ cache, advance_lookahead st cache ≠ none) := by
  obtain ⟨s, hrun, hdeg, _⟩ := run_induction (fun _ => True) (fun _ _ => True)
    (fun _ _ _ => trivial) trivial (fun _ _ _ _ _ _ _ _ => trivial) calls trivial
  refine ⟨s.1, s.2, hrun, hdeg, ?_⟩
  intro cache
  obtain ⟨st, reqs, hadv, _⟩ := advance_degree_ok s.1 cache hdeg
  rw [hadv]
  simp

/-- Witness of C15: after three accesses of one ip to the lines 10, 20, 30 the engine holds
a lookahead of degree 3. -/
theorem degree_positive_witness :
    ∃ st log, run [.cache_operate ⟨7, false, 0, fun _ _ _ => true⟩ 640 256 0 false 0 0,
        .cache_operate ⟨8, false, 0, fun _ _ _ => true⟩ 1280 256 0 false 0 0,
        .cache_operate ⟨9, false, 0, fun _ _ _ => true⟩ 1920 256 0 false 0 0,
        .cycle_operate ⟨10, false, 0, fun _ _ _ => true⟩] = some (st, log) ∧
      st.active_lookahead = some ⟨1920, 10, 3, 39⟩ ∧
      (1 : Int) ≤ 3 ∧ (3 : Int) ≤ PREFETCH_DEGREE := by
  obtain ⟨st, log, hrun, hdeg, _⟩ :=
    degree_positive [.cache_operate ⟨7, false, 0, fun _ _ _ => true⟩ 640 256 0 false 0 0,
        .cache_operate ⟨8, false, 0, fun _ _ _ => true⟩ 1280 256 0 false 0 0,
        .cache_operate ⟨9, false, 0, fun _ _ _ => true⟩ 1920 256 0 false 0 0,
        .cycle_operate ⟨10, false, 0, fun _ _ _ => true⟩]
  have hla : (run [.cache_operate ⟨7, false, 0, fun _ _ _ => true⟩ 640 256 0 false 0 0,
        .cache_operate ⟨8, false, 0, fun _ _ _ => true⟩ 1280 256 0 false 0 0,
        .cache_operate ⟨9, false, 0, fun _ _ _ => true⟩ 1920 256 0 false 0 0,
        .cycle_operate ⟨10, false, 0, fun _ _ _ => true⟩]).map
      (fun r => r.1.active_lookahead) = some (some ⟨1920, 10, 3, 39⟩) := by decide
  rw [hrun] at hla
  have hst : st.active_lookahead = some ⟨1920, 10, 3, 39⟩ := Option.some.inj hla
  exact ⟨st, log, hrun, hst, hdeg _ hst⟩

theorem exec_cycle_cases (s s2 : TSKID_Prefetcher × List log_entry) (cache : CACHE)
    (hdeg : degree_ok s.1) (h : exec s (.cycle_operate cache) = some s2) :
    s2 = s ∨
    ∃ la, s.1.active_lookahead = some la ∧ la.issue_cycle ≤ cache.current_cycle ∧
      ((¬ (cache.virtual_prefetch = true ∨
            toUInt64 (la.address + la.stride * BLOCK_SIZE) >>> LOG2_PAGE_SIZE
              = la.address >>> LOG2_PAGE_SIZE) ∧
          s2 = (⟨none, s.1.table⟩, s.2)) ∨
       ((cache.virtual_prefetch = true ∨
            toUInt64 (la.address + la.stride * BLOCK_SIZE) >>> LOG2_PAGE_SIZE
              = la.address >>> LOG2_PAGE_SIZE) ∧
          ∃ (acc : Bool) (req : prefetch_request),
            req.pf_addr = toUInt64 (la.address + la.stride * BLOCK_SIZE) ∧
            s2.2 = s.2 ++ [.issued cache.current_cycle req acc] ∧
            s2.1.table = s.1.table ∧
            s2.1.active_lookahead =
              if acc = true then
                (if la.degree - 1 = 0 then none
                 else some ⟨toUInt64 (la.address + la.stride * BLOCK_SIZE), la.stride,
                        la.degree - 1, (cache.current_cycle + PREFETCH_DELAY) % 2 ^ 64⟩)
              else some la)) := by
  rw [exec_cycle_operate] at h
  cases hla : s.1.active_lookahead with
  | none =>
    rw [advance_idle s.1 cache hla] at h
    left
    exact (Option.some.inj h).symm.trans (by simp)
  | some la =>
    by_cases hready : la.issue_cycle ≤ cache.current_cycle
    · right
      refine ⟨la, rfl, hready, ?_⟩
      rw [advance_ready s.1 cache la hla hready (by have := hdeg la hla; omega)] at h
      by_cases hp : cache.virtual_prefetch = true ∨
          toUInt64 (la.address + la.stride * BLOCK_SIZE) >>> LOG2_PAGE_SIZE
            = la.address >>> LOG2_PAGE_SIZE
      · right
        rw [if_pos hp] at h
        have h2 := (Option.some.inj h).symm
        refine ⟨hp, cache.prefetch_line (toUInt64 (la.address + la.stride * BLOCK_SIZE))
            (decide (cache.get_mshr_occupancy_ratio < 1 / 2)) 0,
          ⟨toUInt64 (la.address + la.stride * BLOCK_SIZE),
            decide (cache.get_mshr_occupancy_ratio < 1 / 2), 0⟩, rfl, ?_, ?_, ?_⟩
        · rw [h2]
          rfl
        · rw [h2]
        · rw [h2]
      · left
        rw [if_neg hp] at h
        exact ⟨hp, (Option.some.inj h).symm.trans (by simp)⟩
    · rw [advance_wait s.1 cache la hla (not_le.1 hready)] at h
      left
      exact (Option.some.inj h).symm.trans (by simp)

/-! ## Well-formed lookaheads -/

theorem observe_table_lines_ok (self : TSKID_Prefetcher) (ip cl_addr : Nat) (cache : CACHE)
    (ht : table_lines_ok self.table) (hcl : cl_addr < 2 ^ 58) :
    table_lines_ok (observe self ip cl_addr cache).1.table := by
  intro i e he
  rw [observe_table] at he
  rcases fill_sets_subset _ _ _ _ he with h1 | h1
  · rw [h1]
    exact hcl
  · exact ht i e (check_hit_sets_subset _ _ _ _ h1)

theorem observe_stride_bound (self : TSKID_Prefetcher) (ip cl_addr : Nat) (cache : CACHE)
    (ht : table_lines_ok self.table) (hcl : cl_addr < 2 ^ 58) :
    -2 ^ 58 < (observe self ip cl_addr cache).2.stride ∧
      (observe self ip cl_addr cache).2.stride < 2 ^ 58 := by
  cases hc : (self.table.check_hit ⟨ip, cl_addr, 0, 0⟩).1 with
  | none =>
    rw [observe_miss self ip cl_addr cache hc]
    exact ⟨(by decide : (-2 ^ 58 : Int) < 0), (by decide : (0 : Int) < 2 ^ 58)⟩
  | some found =>
    have hlast := ht _ _ (check_hit_mem _ _ _ hc).1
    rw [observe_hit_stride self ip cl_addr cache found hc,
      hit_stride_exact cl_addr found (by omega) (by omega)]
    omega

theorem observe_lookahead_ok (self : TSKID_Prefetcher) (ip cl_addr : Nat) (cache : CACHE)
    (ht : table_lines_ok self.table) (hcl : cl_addr < 2 ^ 58) (hla : lookahead_ok self) :
    lookahead_ok (observe self ip cl_addr cache).1 := by
  intro la h
  rw [observe_slot] at h
  split at h
  · rename_i harm
    rw [observe_didArm] at harm
    have hs := (of_decide_eq_true harm).1
    have hb := observe_stride_bound self ip cl_addr cache ht hcl
    rw [← Option.some.inj h]
    refine ⟨hs, hb.1, hb.2, ?_, ?_⟩
    · simp only [LOG2_BLOCK_SIZE, BLOCK_SIZE, Nat.shiftLeft_eq]
      omega
    · exact Nat.mod_lt _ (by decide)
  · exact hla la h

theorem next_address_ok (a : Nat) (s : Int) (ha : a % BLOCK_SIZE = 0)
    (hs0 : s ≠ 0) (hs1 : -2 ^ 58 < s) (hs2 : s < 2 ^ 58) :
    toUInt64 (a + s * BLOCK_SIZE) % BLOCK_SIZE = 0 ∧ toUInt64 (a + s * BLOCK_SIZE) < 2 ^ 64 ∧
      toUInt64 (a + s * BLOCK_SIZE) ≠ a := by
  have hB : BLOCK_SIZE = 64 := rfl
  rw [hB] at ha ⊢
  unfold toUInt64
  refine ⟨?_, ?_, ?_⟩ <;> omega

/-- C16. Lookahead well-formedness: in every state reached by a run of host calls from the
initial state (the byte addresses of the accesses being 64-bit values), an active
lookahead has a nonzero stride and a predicted address that is a multiple of
`BLOCK_SIZE`; every request a tick then sends is for a line-aligned address that differs
from that predicted address; and every address passed to `prefetch_line` during the run
is line-aligned. -/
theorem lookahead_well_formed (calls : List host_call)
    (haddr : ∀ cache addr ip cache_hit useful_prefetch type metadata_in,
      host_call.cache_operate cache addr ip cache_hit useful_prefetch type metadata_in ∈ calls →
        addr < 2 ^ 64) :
    ∃ st log, run calls = some (st, log) ∧
      (∀ la, st.active_lookahead = some la →
        la.stride ≠ 0 ∧ la.address % BLOCK_SIZE = 0 ∧
        ∀ cache st2 reqs, advance_lookahead st cache = some (st2, reqs) →
          ∀ r ∈ reqs, r.pf_addr % BLOCK_SIZE = 0 ∧ r.pf_addr ≠ la.address) ∧
      (∀ cycle req accepted, log_entry.issued cycle req accepted ∈ log →
        req.pf_addr % BLOCK_SIZE = 0) := by
  obtain ⟨s, hrun, hdeg, ht, hla, hlog⟩ := run_induction
    (fun l => ∀ cache addr ip cache_hit useful_prefetch type metadata_in,
      host_call.cache_operate cache addr ip cache_hit useful_prefetch type metadata_in ∈ l →
        addr < 2 ^ 64)
    (fun _ s => table_lines_ok s.1.table ∧ lookahead_ok s.1 ∧
      ∀ cycle req accepted, log_entry.issued cycle req accepted ∈ s.2 →
        req.pf_addr % BLOCK_SIZE = 0)
    (fun l c h cache addr ip ch up ty md hm => h cache addr ip ch up ty md
      (List.mem_append_left _ hm))
    ⟨fun i e he => by simp [lru_table.empty] at he,
      fun la hla => absurd hla (by simp), fun _ _ _ h => by simp at h⟩
    (by
      intro l c s s2 hq ⟨ht, hla, hlog⟩ hdeg hexec
      cases c with
      | cache_operate cache addr ip cache_hit useful_prefetch type metadata_in =>
        have ha : addr < 2 ^ 64 := hq cache addr ip cache_hit useful_prefetch type metadata_in
          (by simp)
        have hcl : addr >>> LOG2_BLOCK_SIZE < 2 ^ 58 := by
          simp only [LOG2_BLOCK_SIZE, Nat.shiftRight_eq_div_pow]
          omega
        rw [exec_cache_operate] at hexec
        have h2 := (Option.some.inj hexec).symm
        rw [h2]
        refine ⟨observe_table_lines_ok _ _ _ _ ht hcl,
          observe_lookahead_ok _ _ _ _ ht hcl hla, ?_⟩
        intro cycle req accepted hm
        simp only at hm
        split at hm
        · rcases List.mem_append.1 hm with h3 | h3
          · exact hlog _ _ _ h3
          · simp at h3
        · exact hlog _ _ _ hm
      | cycle_operate cache =>
        rcases exec_cycle_cases s s2 cache hdeg hexec with h2 | ⟨la, hsla, _, h2⟩
        · rw [h2]
          exact ⟨ht, hla, hlog⟩
        · obtain ⟨hs0, hs1, hs2, hal, ha64⟩ := hla la hsla
          obtain ⟨hn1, hn2, _⟩ := next_address_ok la.address la.stride hal hs0 hs1 hs2
          rcases h2 with ⟨_, h2⟩ | ⟨_, acc, req, hreq, hlog2, htbl, hslot⟩
          · rw [h2]
            exact ⟨ht, fun la2 h3 => absurd h3 (by simp), hlog⟩
          · refine ⟨by rw [htbl]; exact ht, ?_, ?_⟩
            · intro la2 h3
              rw [hslot] at h3
              split at h3
              · split at h3
                · exact absurd h3 (by simp)
                · rw [← Option.some.inj h3]
                  exact ⟨hs0, hs1, hs2, hn1, hn2⟩
              · rw [← Option.some.inj h3]
                exact ⟨hs0, hs1, hs2, hal, ha64⟩
            · intro cycle r accepted hm
              rw [hlog2] at hm
              rcases List.mem_append.1 hm with h3 | h3
              · exact hlog _ _ _ h3
              · simp only [List.mem_singleton, log_entry.issued.injEq] at h3
                rw [h3.2.1, hreq]
                exact hn1
      | cache_fill cache addr set way prefetch evicted_addr metadata_in =>
        rw [exec_cache_fill] at hexec
        rw [← Option.some.inj hexec]
        exact ⟨ht, hla, hlog⟩)
    calls haddr
  refine ⟨s.1, s.2, hrun, ?_, hlog⟩
  intro la hsla
  obtain ⟨hs0, hs1, hs2, hal, _⟩ := hla la hsla
  obtain ⟨hn1, _, hn3⟩ := next_address_ok la.address la.stride hal hs0 hs1 hs2
  refine ⟨hs0, hal, ?_⟩
  intro cache st2 reqs hadv r hr
  have hexec : exec s (.cycle_operate cache) = some (st2, s.2 ++ reqs.map (fun q =>
      .issued cache.current_cycle q
        (cache.prefetch_line q.pf_addr q.fill_this_level q.prefetch_metadata))) := by
    rw [exec_cycle_operate, hadv]
    rfl
  rcases exec_cycle_cases s _ cache hdeg hexec with h2 | ⟨la2, hsla2, _, h2⟩
  · have h3 := congrArg Prod.snd h2
    simp only [List.append_right_eq_self, List.map_eq_nil_iff] at h3
    rw [h3] at hr
    simp at hr
  · rw [hsla] at hsla2
    have hl := Option.some.inj hsla2
    subst hl
    rcases h2 with ⟨_, h2⟩ | ⟨_, acc, req, hreq, hlog2, _, _⟩
    · have h3 := congrArg Prod.snd h2
      simp only [List.append_right_eq_self, List.map_eq_nil_iff] at h3
      rw [h3] at hr
      simp at hr
    · simp only [List.append_cancel_left_eq] at hlog2
      cases reqs with
      | nil => simp at hr
      | cons q qs =>
        simp only [List.map_cons, List.cons.injEq, log_entry.issued.injEq,
          List.map_eq_nil_iff] at hlog2
        obtain ⟨⟨_, hq, _⟩, hqs⟩ := hlog2
        rw [hqs] at hr
        simp only [List.mem_singleton] at hr
        rw [hr, hq, hreq]
        exact ⟨hn1, hn3⟩

/-- Witness of C16: the lookahead `(1920, 10, 3, 39)` armed by three accesses to the bytes
640, 1280, 1920 has a nonzero stride and a line-aligned address. -/
theorem lookahead_well_formed_witness :
    ∃ st log, run [.cache_operate ⟨7, false, 0, fun _ _ _ => true⟩ 640 256 0 false 0 0,
        .cache_operate ⟨8, false, 0, fun _ _ _ => true⟩ 1280 256 0 false 0 0,
        .cache_operate ⟨9, false, 0, fun _ _ _ => true⟩ 1920 256 0 false 0 0] = some (st, log) ∧
      st.active_lookahead = some ⟨1920, 10, 3, 39⟩ ∧
      (10 : Int) ≠ 0 ∧ 1920 % BLOCK_SIZE = 0 := by
  obtain ⟨st, log, hrun, hla, _⟩ :=
    lookahead_well_formed [.cache_operate ⟨7, false, 0, fun _ _ _ => true⟩ 640 256 0 false 0 0,
        .cache_operate ⟨8, false, 0, fun _ _ _ => true⟩ 1280 256 0 false 0 0,
        .cache_operate ⟨9, false, 0, fun _ _ _ => true⟩ 1920 256 0 false 0 0]
      (by
        intro cache addr ip cache_hit useful_prefetch type metadata_in h
        simp only [List.mem_cons, host_call.cache_operate.injEq, List.mem_singleton,
          List.not_mem_nil, or_false] at h
        rcases h with h | h | h <;> omega)
  have h2 : (run [.cache_operate ⟨7, false, 0, fun _ _ _ => true⟩ 640 256 0 false 0 0,
        .cache_operate ⟨8, false, 0, fun _ _ _ => true⟩ 1280 256 0 false 0 0,
        .cache_operate ⟨9, false, 0, fun _ _ _ => true⟩ 1920 256 0 false 0 0]).map
      (fun r => r.1.active_lookahead) = some (some ⟨1920, 10, 3, 39⟩) := by decide
  rw [hrun] at h2
  have hst : st.active_lookahead = some ⟨1920, 10, 3, 39⟩ := Option.some.inj h2
  exact ⟨st, log, hrun, hst, (hla _ hst).1, (hla _ hst).2.1⟩

/-! ## Spacing of the requests -/

theorem exec_operate_log (s s2 : TSKID_Prefetcher × List log_entry) (cache : CACHE)
    (addr ip cache_hit : Nat) (useful_prefetch : Bool) (type metadata_in : Nat)
    (h : exec s (.cache_operate cache addr ip cache_hit useful_prefetch type metadata_in)
      = some s2) :
    (s2.2 = s.2 ∧ s2.1.active_lookahead = s.1.active_lookahead) ∨
    (∃ la, s2.1.active_lookahead = some la ∧
      la.issue_cycle = (cache.current_cycle + PREFETCH_DELAY) % 2 ^ 64 ∧
      s2.2 = s.2 ++ [.armed cache.current_cycle la.address]) := by
  rw [exec_cache_operate] at h
  have h2 := (Option.some.inj h).symm
  have hslot := observe_slot s.1 ip (addr >>> LOG2_BLOCK_SIZE) cache
  by_cases harm : (observe s.1 ip (addr >>> LOG2_BLOCK_SIZE) cache).2.didArm = true
  · right
    rw [if_pos harm] at hslot h2
    rw [h2]
    exact ⟨_, hslot, rfl, rfl⟩
  · left
    rw [if_neg harm] at hslot h2
    rw [h2]
    exact ⟨rfl, hslot⟩

theorem spacing_invariant (calls : List host_call)
    (hmono : calls.Pairwise (fun c1 c2 => c1.cache.current_cycle ≤ c2.cache.current_cycle))
    (hovf : ∀ c ∈ calls, c.cache.current_cycle + PREFETCH_DELAY < 2 ^ 64) :
    ∃ s, run calls = some s ∧
      s.2.Pairwise (fun e1 e2 => e2.is_issued = true → e1.sets_ready = true →
        e1.cycle + PREFETCH_DELAY ≤ e2.cycle) := by
  obtain ⟨s, hrun, _, _, _, h3⟩ := run_induction
    (fun l => l.Pairwise (fun c1 c2 => c1.cache.current_cycle ≤ c2.cache.current_cycle) ∧
      ∀ c ∈ l, c.cache.current_cycle + PREFETCH_DELAY < 2 ^ 64)
    (fun l s =>
      (∀ e ∈ s.2, ∃ c ∈ l, e.cycle = c.cache.current_cycle) ∧
      (∀ la, s.1.active_lookahead = some la → ∀ e ∈ s.2, e.sets_ready = true →
        e.cycle + PREFETCH_DELAY ≤ la.issue_cycle) ∧
      s.2.Pairwise (fun e1 e2 => e2.is_issued = true → e1.sets_ready = true →
        e1.cycle + PREFETCH_DELAY ≤ e2.cycle))
    (fun l c h => ⟨(List.pairwise_append.1 h.1).1,
      fun x hx => h.2 x (List.mem_append_left _ hx)⟩)
    ⟨fun e he => by simp at he, fun la hla => absurd hla (by simp), List.Pairwise.nil⟩
    (by
      intro l c s s2 ⟨hm, ho⟩ ⟨h1, h2, h3⟩ hdeg hexec
      have hle : ∀ e ∈ s.2, e.cycle ≤ c.cache.current_cycle := by
        intro e he
        obtain ⟨x, hx, hxe⟩ := h1 e he
        rw [hxe]
        exact (List.pairwise_append.1 hm).2.2 x hx c (by simp)
      have hnow : (c.cache.current_cycle + PREFETCH_DELAY) % 2 ^ 64
          = c.cache.current_cycle + PREFETCH_DELAY :=
        Nat.mod_eq_of_lt (ho c (by simp))
      have h1old : ∀ e ∈ s.2, ∃ x ∈ l ++ [c], e.cycle = x.cache.current_cycle := by
        intro e he
        obtain ⟨x, hx, hxe⟩ := h1 e he
        exact ⟨x, List.mem_append_left _ hx, hxe⟩
      cases c with
      | cache_operate cache addr ip cache_hit useful_prefetch type metadata_in =>
        simp only [host_call.cache] at hle hnow
        rcases exec_operate_log s s2 cache addr ip cache_hit useful_prefetch type metadata_in
          hexec with ⟨hl, hs⟩ | ⟨la, hs, hi, hl⟩
        · rw [hl, hs]
          exact ⟨h1old, h2, h3⟩
        · rw [hl]
          refine ⟨?_, ?_, ?_⟩
          · intro e he
            rcases List.mem_append.1 he with he | he
            · exact h1old e he
            · rw [List.mem_singleton.1 he]
              exact ⟨.cache_operate cache addr ip cache_hit useful_prefetch type metadata_in,
                by simp, rfl⟩
          · intro la2 hla2 e he _
            rw [hs] at hla2
            rw [← Option.some.inj hla2, hi, hnow]
            rcases List.mem_append.1 he with he | he
            · have := hle e he
              omega
            · rw [List.mem_singleton.1 he]
              exact le_refl _
          · rw [List.pairwise_append]
            refine ⟨h3, List.pairwise_singleton _ _, ?_⟩
            intro a _ b hb hiss
            rw [List.mem_singleton.1 hb] at hiss
            exact absurd hiss (by simp [log_entry.is_issued])
      | cycle_operate cache =>
        simp only [host_call.cache] at hle hnow
        rcases exec_cycle_cases s s2 cache hdeg hexec with hs | ⟨la, hsla, hready, hs⟩
        · rw [hs]
          exact ⟨h1old, h2, h3⟩
        · rcases hs with ⟨_, hs⟩ | ⟨_, acc, req, _, hlog2, _, hslot⟩
          · rw [hs]
            exact ⟨h1old, fun la2 hla2 => absurd hla2 (by simp), h3⟩
          · rw [hlog2]
            refine ⟨?_, ?_, ?_⟩
            · intro e he
              rcases List.mem_append.1 he with he | he
              · exact h1old e he
              · rw [List.mem_singleton.1 he]
                exact ⟨.cycle_operate cache, by simp, rfl⟩
            · intro la2 hla2 e he hready2
              rw [hslot] at hla2
              cases acc with
              | true =>
                simp only [if_true] at hla2
                split at hla2
                · exact absurd hla2 (by simp)
                · rw [← Option.some.inj hla2]
                  simp only
                  rw [hnow]
                  rcases List.mem_append.1 he with he | he
                  · have := hle e he
                    omega
                  · rw [List.mem_singleton.1 he]
                    exact le_refl _
              | false =>
                simp only [Bool.false_eq_true, if_false] at hla2
                rw [← Option.some.inj hla2]
                rcases List.mem_append.1 he with he | he
                · exact h2 la hsla e he hready2
                · rw [List.mem_singleton.1 he] at hready2
                  exact absurd hready2 (by simp [log_entry.sets_ready])
            · rw [List.pairwise_append]
              refine ⟨h3, List.pairwise_singleton _ _, ?_⟩
              intro a ha b hb _ hra
              rw [List.mem_singleton.1 hb]
              have := h2 la hsla a ha hra
              have hc : (log_entry.issued cache.current_cycle req acc).cycle
                  = cache.current_cycle := rfl
              rw [hc]
              omega
      | cache_fill cache addr set way prefetch evicted_addr metadata_in =>
        rw [exec_cache_fill] at hexec
        rw [← Option.some.inj hexec]
        exact ⟨h1old, h2, h3⟩)
    calls ⟨hmono, hovf⟩
  exact ⟨s, hrun, h3⟩

/-- C17. Minimum spacing of the requests: in a run of host calls whose cycles are
non-decreasing and for which `cycle + PREFETCH_DELAY` does not overflow, every request
sent to the host at a cycle `c` comes at least `PREFETCH_DELAY` cycles after every
earlier arming (so after the most recent one) and after every earlier accepted request
(so after the most recent one). Hence two accepted prefetches are at least
`PREFETCH_DELAY` cycles apart, and no request is sent less than `PREFETCH_DELAY` cycles
after an arming: a lookahead that is re-armed more often than that never issues. -/
theorem minimum_spacing (calls : List host_call)
    (hmono : calls.Pairwise (fun c1 c2 => c1.cache.current_cycle ≤ c2.cache.current_cycle))
    (hovf : ∀ c ∈ calls, c.cache.current_cycle + PREFETCH_DELAY < 2 ^ 64) :
    ∃ st log, run calls = some (st, log) ∧
      ∀ pre post cycle req accepted, log = pre ++ log_entry.issued cycle req accepted :: post →
        (∀ a address, log_entry.armed a address ∈ pre → a + PREFETCH_DELAY ≤ cycle) ∧
        (∀ b req2, log_entry.issued b req2 true ∈ pre → b + PREFETCH_DELAY ≤ cycle) := by
  obtain ⟨s, hrun, hpw⟩ := spacing_invariant calls hmono hovf
  refine ⟨s.1, s.2, hrun, ?_⟩
  intro pre post cycle req accepted hlog
  rw [hlog] at hpw
  have h := (List.pairwise_append.1 hpw).2.2
  refine ⟨?_, ?_⟩
  · intro a address ha
    exact h _ ha _ (List.mem_cons_self _ _) rfl rfl
  · intro b req2 hb
    exact h _ hb _ (List.mem_cons_self _ _) rfl rfl

/-- Witness of C17: armed at cycle 9, the lookahead issues at the cycles 39 and 69 when
ticked at the cycles 10, 39, 40 and 69. -/
theorem minimum_spacing_witness :
    (run [.cache_operate ⟨7, false, 0, fun _ _ _ => true⟩ 640 256 0 false 0 0,
        .cache_operate ⟨8, false, 0, fun _ _ _ => true⟩ 1280 256 0 false 0 0,
        .cache_operate ⟨9, false, 0, fun _ _ _ => true⟩ 1920 256 0 false 0 0,
        .cycle_operate ⟨10, false, 0, fun _ _ _ => true⟩,
        .cycle_operate ⟨39, false, 0, fun _ _ _ => true⟩,
        .cycle_operate ⟨40, false, 0, fun _ _ _ => true⟩,
        .cycle_operate ⟨69, false, 0, fun _ _ _ => true⟩]).map
        (fun r => r.2.map (fun e => (e.is_issued, e.cycle)))
      = some [(false, 9), (true, 39), (true, 69)] ∧
    ∃ st log, run [.cache_operate ⟨7, false, 0, fun _ _ _ => true⟩ 640 256 0 false 0 0,
        .cache_operate ⟨8, false, 0, fun _ _ _ => true⟩ 1280 256 0 false 0 0,
        .cache_operate ⟨9, false, 0, fun _ _ _ => true⟩ 1920 256 0 false 0 0,
        .cycle_operate ⟨10, false, 0, fun _ _ _ => true⟩,
        .cycle_operate ⟨39, false, 0, fun _ _ _ => true⟩,
        .cycle_operate ⟨40, false, 0, fun _ _ _ => true⟩,
        .cycle_operate ⟨69, false, 0, fun _ _ _ => true⟩] = some (st, log) ∧
      ∀ pre post cycle req accepted, log = pre ++ log_entry.issued cycle req accepted :: post →
        (∀ a address, log_entry.armed a address ∈ pre → a + PREFETCH_DELAY ≤ cycle) ∧
        (∀ b req2, log_entry.issued b req2 true ∈ pre → b + PREFETCH_DELAY ≤ cycle) :=
  ⟨by decide,
   minimum_spacing [.cache_operate ⟨7, false, 0, fun _ _ _ => true⟩ 640 256 0 false 0 0,
        .cache_operate ⟨8, false, 0, fun _ _ _ => true⟩ 1280 256 0 false 0 0,
        .cache_operate ⟨9, false, 0, fun _ _ _ => true⟩ 1920 256 0 false 0 0,
        .cycle_operate ⟨10, false, 0, fun _ _ _ => true⟩,
        .cycle_operate ⟨39, false, 0, fun _ _ _ => true⟩,
        .cycle_operate ⟨40, false, 0, fun _ _ _ => true⟩,
        .cycle_operate ⟨69, false, 0, fun _ _ _ => true⟩] (by decide) (by decide)⟩

/-! ## Page confinement -/

theorem last_armed_armed (log : List log_entry) (cycle address : Nat) :
    last_armed (log ++ [.armed cycle address]) = some address := by
  simp [last_armed, List.foldl_append]

theorem last_armed_issued (log : List log_entry) (cycle : Nat) (req : prefetch_request)
    (accepted : Bool) :
    last_armed (log ++ [.issued cycle req accepted]) = last_armed log := by
  simp [last_armed, List.foldl_append]

theorem append_singleton_split {α : Type} (l pre post : List α) (x y : α)
    (h : l ++ [x] = pre ++ y :: post) :
    (pre = l ∧ y = x ∧ post = []) ∨ ∃ post2, l = pre ++ y :: post2 ∧ post = post2 ++ [x] := by
  rcases List.eq_nil_or_concat post with hp | ⟨p2, z, hp⟩
  · subst hp
    have h2 := List.append_inj' h rfl
    exact Or.inl ⟨h2.1.symm, (List.cons.inj h2.2).1.symm, rfl⟩
  · subst hp
    have h3 : l ++ [x] = (pre ++ y :: p2) ++ [z] := by
      rw [h]
      simp
    have h2 := List.append_inj' h3 rfl
    refine Or.inr ⟨p2, h2.1, ?_⟩
    rw [(List.cons.inj h2.2).1, List.concat_eq_append]

theorem page_invariant (calls : List host_call)
    (hvirt : ∀ cache, host_call.cycle_operate cache ∈ calls → cache.virtual_prefetch = false) :
    ∃ s, run calls = some s ∧
      (∀ la, s.1.active_lookahead = some la → ∃ A, last_armed s.2 = some A ∧
        la.address >>> LOG2_PAGE_SIZE = A >>> LOG2_PAGE_SIZE) ∧
      (∀ pre post cycle req accepted, s.2 = pre ++ log_entry.issued cycle req accepted :: post →
        ∃ A, last_armed pre = some A ∧
          req.pf_addr >>> LOG2_PAGE_SIZE = A >>> LOG2_PAGE_SIZE) := by
  obtain ⟨s, hrun, _, h1, h2⟩ := run_induction
    (fun l => ∀ cache, host_call.cycle_operate cache ∈ l → cache.virtual_prefetch = false)
    (fun _ s =>
      (∀ la, s.1.active_lookahead = some la → ∃ A, last_armed s.2 = some A ∧
        la.address >>> LOG2_PAGE_SIZE = A >>> LOG2_PAGE_SIZE) ∧
      (∀ pre post cycle req accepted, s.2 = pre ++ log_entry.issued cycle req accepted :: post →
        ∃ A, last_armed pre = some A ∧
          req.pf_addr >>> LOG2_PAGE_SIZE = A >>> LOG2_PAGE_SIZE))
    (fun l c h cache hm => h cache (List.mem_append_left _ hm))
    ⟨fun la hla => absurd hla (by simp), fun pre post cycle req accepted h => by simp at h⟩
    (by
      intro l c s s2 hq ⟨h1, h2⟩ hdeg hexec
      cases c with
      | cache_operate cache addr ip cache_hit useful_prefetch type metadata_in =>
        rcases exec_operate_log s s2 cache addr ip cache_hit useful_prefetch type metadata_in
          hexec with ⟨hl, hs⟩ | ⟨la, hs, _, hl⟩
        · rw [hl, hs]
          exact ⟨h1, h2⟩
        · rw [hl, hs]
          refine ⟨?_, ?_⟩
          · intro la2 hla2
            rw [← Option.some.inj hla2]
            exact ⟨la.address, last_armed_armed _ _ _, rfl⟩
          · intro pre post cycle req accepted hsplit
            rcases append_singleton_split _ _ _ _ _ hsplit with ⟨_, h3, _⟩ | ⟨p2, h3, _⟩
            · exact absurd h3 (by simp)
            · exact h2 pre p2 cycle req accepted h3
      | cycle_operate cache =>
        have hv : cache.virtual_prefetch = false := hq cache (by simp)
        rcases exec_cycle_cases s s2 cache hdeg hexec with hs | ⟨la, hsla, _, hs⟩
        · rw [hs]
          exact ⟨h1, h2⟩
        · rcases hs with ⟨_, hs⟩ | ⟨hpage, acc, req, hreq, hlog2, _, hslot⟩
          · rw [hs]
            exact ⟨fun la2 hla2 => absurd hla2 (by simp), h2⟩
          · obtain ⟨A, hA, hAp⟩ := h1 la hsla
            have hpg : toUInt64 (la.address + la.stride * BLOCK_SIZE) >>> LOG2_PAGE_SIZE
                = A >>> LOG2_PAGE_SIZE := by
              rcases hpage with hp | hp
              · rw [hv] at hp
                exact absurd hp (by simp)
              · exact hp.trans hAp
            rw [hlog2]
            refine ⟨?_, ?_⟩
            · intro la2 hla2
              rw [hslot] at hla2
              refine ⟨A, (last_armed_issued _ _ _ _).trans hA, ?_⟩
              split at hla2
              · split at hla2
                · exact absurd hla2 (by simp)
                · rw [← Option.some.inj hla2]
                  exact hpg
              · rw [← Option.some.inj hla2]
                exact hAp
            · intro pre post cycle r accepted hsplit
              rcases append_singleton_split _ _ _ _ _ hsplit with ⟨h3, h4, _⟩ | ⟨p2, h3, _⟩
              · simp only [log_entry.issued.injEq] at h4
                rw [h3, h4.2.1, hreq]
                exact ⟨A, hA, hpg⟩
              · exact h2 pre p2 cycle r accepted h3
      | cache_fill cache addr set way prefetch evicted_addr metadata_in =>
        rw [exec_cache_fill] at hexec
        rw [← Option.some.inj hexec]
        exact ⟨h1, h2⟩)
    calls hvirt
  exact ⟨s, hrun, h1, h2⟩

/-- C18. Page confinement: when `virtual_prefetch` is false at every tick of a run of host
calls, every address passed to `prefetch_line` lies in the page of the byte address
stored by the most recent arming before the request, and in every state reached the
predicted address of an active lookahead lies in the page of the byte address stored by
the most recent arming. -/
theorem page_confinement (calls : List host_call)
    (hvirt : ∀ cache, host_call.cycle_operate cache ∈ calls → cache.virtual_prefetch = false) :
    ∃ st log, run calls = some (st, log) ∧
      (∀ pre post cycle req accepted, log = pre ++ log_entry.issued cycle req accepted :: post →
        ∃ A, last_armed pre = some A ∧
          req.pf_addr >>> LOG2_PAGE_SIZE = A >>> LOG2_PAGE_SIZE) ∧
      (∀ la, st.active_lookahead = some la → ∃ A, last_armed log = some A ∧
        la.address >>> LOG2_PAGE_SIZE = A >>> LOG2_PAGE_SIZE) := by
  obtain ⟨s, hrun, h1, h2⟩ := page_invariant calls hvirt
  exact ⟨s.1, s.2, hrun, h2, h1⟩

/-- Witness of C18: armed on byte 1920 and ticked at the cycles 39 and 69 without virtual
prefetching, the engine holds the predicted address 3200, in the page of 1920. -/
theorem page_confinement_witness :
    (run [.cache_operate ⟨7, false, 0, fun _ _ _ => true⟩ 640 256 0 false 0 0,
        .cache_operate ⟨8, false, 0, fun _ _ _ => true⟩ 1280 256 0 false 0 0,
        .cache_operate ⟨9, false, 0, fun _ _ _ => true⟩ 1920 256 0 false 0 0,
        .cycle_operate ⟨39, false, 0, fun _ _ _ => true⟩,
        .cycle_operate ⟨69, false, 0, fun _ _ _ => true⟩]).map
        (fun r => (last_armed r.2, r.1.active_lookahead))
      = some (some 1920, some ⟨3200, 10, 1, 99⟩) ∧
    ∃ st log, run [.cache_operate ⟨7, false, 0, fun _ _ _ => true⟩ 640 256 0 false 0 0,
        .cache_operate ⟨8, false, 0, fun _ _ _ => true⟩ 1280 256 0 false 0 0,
        .cache_operate ⟨9, false, 0, fun _ _ _ => true⟩ 1920 256 0 false 0 0,
        .cycle_operate ⟨39, false, 0, fun _ _ _ => true⟩,
        .cycle_operate ⟨69, false, 0, fun _ _ _ => true⟩] = some (st, log) ∧
      (∀ pre post cycle req accepted, log = pre ++ log_entry.issued cycle req accepted :: post →
        ∃ A, last_armed pre = some A ∧
          req.pf_addr >>> LOG2_PAGE_SIZE = A >>> LOG2_PAGE_SIZE) ∧
      (∀ la, st.active_lookahead = some la → ∃ A, last_armed log = some A ∧
        la.address >>> LOG2_PAGE_SIZE = A >>> LOG2_PAGE_SIZE) :=
  ⟨by decide,
   page_confinement [.cache_operate ⟨7, false, 0, fun _ _ _ => true⟩ 640 256 0 false 0 0,
        .cache_operate ⟨8, false, 0, fun _ _ _ => true⟩ 1280 256 0 false 0 0,
        .cache_operate ⟨9, false, 0, fun _ _ _ => true⟩ 1920 256 0 false 0 0,
        .cycle_operate ⟨39, false, 0, fun _ _ _ => true⟩,
        .cycle_operate ⟨69, false, 0, fun _ _ _ => true⟩]
     (by
       intro cache h
       simp only [List.mem_cons, host_call.cycle_operate.injEq, List.mem_singleton,
         List.not_mem_nil, or_false, reduceCtorEq, false_or] at h
       rcases h with h | h <;> rw [h])⟩

/-! ## Arming on a stride seen once -/

theorem observe_after (self : TSKID_Prefetcher) (ip cl1 cl2 : Nat) (cache1 cache2 : CACHE)
    (s1 c1 : Int) (d1 : Bool) (h : (observe self ip cl1 cache1).2 = ⟨s1, c1, d1⟩)
    (h1 : cl1 < 2 ^ 63) (h2 : cl2 < 2 ^ 63) :
    (observe (initiate_lookahead self ip cl1 cache1) ip cl2 cache2).2 =
      ⟨(cl2 : Int) - cl1,
        if (cl2 : Int) - cl1 = s1 then min (c1 + 1) CONFIDENCE_THRESHOLD else max (c1 - 1) 0,
        decide ((cl2 : Int) - cl1 ≠ 0 ∧
          (if (cl2 : Int) - cl1 = s1 then min (c1 + 1) CONFIDENCE_THRESHOLD
            else max (c1 - 1) 0) ≥ CONFIDENCE_THRESHOLD - 1)⟩ := by
  have hl := observe_lookup self ip cl1 cache1 ⟨ip, cl2, 0, 0⟩ rfl
  rw [h] at hl
  have hst : hit_stride cl2 ⟨ip, cl1, s1, c1⟩ = (cl2 : Int) - cl1 :=
    hit_stride_exact cl2 ⟨ip, cl1, s1, c1⟩ h2 h1
  have hcf : hit_confidence cl2 ⟨ip, cl1, s1, c1⟩ =
      if (cl2 : Int) - cl1 = s1 then min (c1 + 1) CONFIDENCE_THRESHOLD
      else max (c1 - 1) 0 := by
    unfold hit_confidence
    rw [hst]
  rw [observe_of_lookup (initiate_lookahead self ip cl1 cache1) ip cl2 cache2
    ⟨ip, cl1, s1, c1⟩ hl, hst, hcf]

/-- C19. Arming does not require a repeated stride. For an untracked ip and lines below
`2^63`: after the accesses `a, a, a` the access `b = a + s` (`s` nonzero) arms a lookahead
with the stride `s`, seen for the first time, the strides recorded before being 0 (the
confidence 2 built up by zero strides is only lowered to 1 by the break). Likewise after
`l0, l0 + t, l0 + 2t, l0 + 3t` the access `l0 + 3t + s`, with `s` and `t` nonzero and
different, arms with the stride `s` although the preceding stride was `t`. -/
theorem arming_without_repeated_stride (self : TSKID_Prefetcher) (ip : Nat)
    (cache1 cache2 cache3 cache4 cache5 : CACHE) :
    (∀ a b : Nat, (self.table.check_hit ⟨ip, a, 0, 0⟩).1 = none →
      a < 2 ^ 63 → b < 2 ^ 63 → a ≠ b →
      observe_seq self ip [(a, cache1), (a, cache2), (a, cache3), (b, cache4)] =
        [⟨0, 0, false⟩, ⟨0, 1, false⟩, ⟨0, 2, false⟩, ⟨(b : Int) - a, 1, true⟩] ∧
      (observe_all self [(ip, a, cache1), (ip, a, cache2), (ip, a, cache3),
          (ip, b, cache4)]).active_lookahead =
        some ⟨(b <<< LOG2_BLOCK_SIZE) % 2 ^ 64, (b : Int) - a, PREFETCH_DEGREE,
          (cache4.current_cycle + PREFETCH_DELAY) % 2 ^ 64⟩) ∧
    (∀ (l0 l1 l2 l3 l4 : Nat) (s t : Int),
      (self.table.check_hit ⟨ip, l0, 0, 0⟩).1 = none →
      l0 < 2 ^ 63 → l1 < 2 ^ 63 → l2 < 2 ^ 63 → l3 < 2 ^ 63 → l4 < 2 ^ 63 →
      (l1 : Int) = l0 + t → (l2 : Int) = l0 + 2 * t → (l3 : Int) = l0 + 3 * t →
      (l4 : Int) = l0 + 3 * t + s →
      s ≠ 0 → t ≠ 0 → s ≠ t →
      observe_seq self ip [(l0, cache1), (l1, cache2), (l2, cache3), (l3, cache4),
          (l4, cache5)] =
        [⟨0, 0, false⟩, ⟨t, 0, false⟩, ⟨t, 1, true⟩, ⟨t, 2, true⟩, ⟨s, 1, true⟩] ∧
      (observe_all self [(ip, l0, cache1), (ip, l1, cache2), (ip, l2, cache3),
          (ip, l3, cache4), (ip, l4, cache5)]).active_lookahead =
        some ⟨(l4 <<< LOG2_BLOCK_SIZE) % 2 ^ 64, s, PREFETCH_DEGREE,
          (cache5.current_cycle + PREFETCH_DELAY) % 2 ^ 64⟩) := by
  refine ⟨?_, ?_⟩
  · intro a b hmiss ha hb hab
    have hs : (b : Int) - a ≠ 0 := by omega
    have o1 : (observe self ip a cache1).2 = ⟨0, 0, false⟩ := by
      rw [observe_miss self ip a cache1 hmiss]
    have o2 := observe_after self ip a a cache1 cache2 0 0 false o1 ha ha
    simp only [sub_self, if_true, CONFIDENCE_THRESHOLD, ne_eq, not_true_eq_false, false_and,
      decide_False] at o2
    have o3 := observe_after (initiate_lookahead self ip a cache1) ip a a cache2 cache3
      0 _ false o2 ha ha
    simp only [sub_self, if_true, CONFIDENCE_THRESHOLD, ne_eq, not_true_eq_false, false_and,
      decide_False] at o3
    have o4 := observe_after (initiate_lookahead (initiate_lookahead self ip a cache1)
      ip a cache2) ip a b cache3 cache4 0 _ false o3 ha hb
    simp only [hs, if_false, CONFIDENCE_THRESHOLD, ne_eq, not_false_eq_true, true_and] at o4
    norm_num at o2 o3 o4
    refine ⟨?_, ?_⟩
    · simp only [observe_seq, o1, o2, o3, o4]
    · have hslot := observe_slot (initiate_lookahead (initiate_lookahead
        (initiate_lookahead self ip a cache1) ip a cache2) ip a cache3) ip b cache4
      rw [o4] at hslot
      simp only [if_true] at hslot
      exact hslot
  · intro l0 l1 l2 l3 l4 s t hmiss h0 h1 h2 h3 h4 e1 e2 e3 e4 hs ht hst
    have d1 : (l1 : Int) - l0 = t := by omega
    have d2 : (l2 : Int) - l1 = t := by omega
    have d3 : (l3 : Int) - l2 = t := by omega
    have d4 : (l4 : Int) - l3 = s := by omega
    have o1 : (observe self ip l0 cache1).2 = ⟨0, 0, false⟩ := by
      rw [observe_miss self ip l0 cache1 hmiss]
    have o2 := observe_after self ip l0 l1 cache1 cache2 0 0 false o1 h0 h1
    rw [d1] at o2
    simp only [ht, if_false, CONFIDENCE_THRESHOLD] at o2
    norm_num at o2
    have o3 := observe_after (initiate_lookahead self ip l0 cache1) ip l1 l2 cache2 cache3
      t 0 false o2 h1 h2
    rw [d2] at o3
    simp only [if_true, CONFIDENCE_THRESHOLD] at o3
    norm_num [ht] at o3
    have o4 := observe_after (initiate_lookahead (initiate_lookahead self ip l0 cache1)
      ip l1 cache2) ip l2 l3 cache3 cache4 t 1 true o3 h2 h3
    rw [d3] at o4
    simp only [if_true, CONFIDENCE_THRESHOLD] at o4
    norm_num [ht] at o4
    have o5 := observe_after (initiate_lookahead (initiate_lookahead
      (initiate_lookahead self ip l0 cache1) ip l1 cache2) ip l2 cache3) ip l3 l4
      cache4 cache5 t 2 true o4 h3 h4
    rw [d4] at o5
    simp only [hst, if_false, CONFIDENCE_THRESHOLD] at o5
    norm_num [hs] at o5
    refine ⟨?_, ?_⟩
    · simp only [observe_seq, o1, o2, o3, o4, o5]
    · have hslot := observe_slot (initiate_lookahead (initiate_lookahead (initiate_lookahead
        (initiate_lookahead self ip l0 cache1) ip l1 cache2) ip l2 cache3) ip l3 cache4)
        ip l4 cache5
      rw [o5] at hslot
      simp only [if_true] at hslot
      exact hslot

/-- Witness of C19: the lines 10, 10, 10, 17 arm with the stride 7, and the lines 10, 13,
16, 19, 24 arm with the stride 5 right after the stride 3. -/
theorem arming_without_repeated_stride_witness :
    (observe_seq {} 256 [(10, ⟨1, false, 0, fun _ _ _ => true⟩),
        (10, ⟨2, false, 0, fun _ _ _ => true⟩), (10, ⟨3, false, 0, fun _ _ _ => true⟩),
        (17, ⟨4, false, 0, fun _ _ _ => true⟩)] =
        [⟨0, 0, false⟩, ⟨0, 1, false⟩, ⟨0, 2, false⟩, ⟨7, 1, true⟩] ∧
      (observe_all {} [(256, 10, ⟨1, false, 0, fun _ _ _ => true⟩),
        (256, 10, ⟨2, false, 0, fun _ _ _ => true⟩), (256, 10, ⟨3, false, 0, fun _ _ _ => true⟩),
        (256, 17, ⟨4, false, 0, fun _ _ _ => true⟩)]).active_lookahead =
        some ⟨1088, 7, 3, 34⟩) ∧
    (observe_seq {} 256 [(10, ⟨1, false, 0, fun _ _ _ => true⟩),
        (13, ⟨2, false, 0, fun _ _ _ => true⟩), (16, ⟨3, false, 0, fun _ _ _ => true⟩),
        (19, ⟨4, false, 0, fun _ _ _ => true⟩), (24, ⟨5, false, 0, fun _ _ _ => true⟩)] =
        [⟨0, 0, false⟩, ⟨3, 0, false⟩, ⟨3, 1, true⟩, ⟨3, 2, true⟩, ⟨5, 1, true⟩] ∧
      (observe_all {} [(256, 10, ⟨1, false, 0, fun _ _ _ => true⟩),
        (256, 13, ⟨2, false, 0, fun _ _ _ => true⟩), (256, 16, ⟨3, false, 0, fun _ _ _ => true⟩),
        (256, 19, ⟨4, false, 0, fun _ _ _ => true⟩),
        (256, 24, ⟨5, false, 0, fun _ _ _ => true⟩)]).active_lookahead =
        some ⟨1536, 5, 3, 35⟩) :=
  ⟨(arming_without_repeated_stride {} 256 ⟨1, false, 0, fun _ _ _ => true⟩
      ⟨2, false, 0, fun _ _ _ => true⟩ ⟨3, false, 0, fun _ _ _ => true⟩
      ⟨4, false, 0, fun _ _ _ => true⟩ ⟨5, false, 0, fun _ _ _ => true⟩).1 10 17
      (by decide) (by decide) (by decide) (by decide),
   (arming_without_repeated_stride {} 256 ⟨1, false, 0, fun _ _ _ => true⟩
      ⟨2, false, 0, fun _ _ _ => true⟩ ⟨3, false, 0, fun _ _ _ => true⟩
      ⟨4, false, 0, fun _ _ _ => true⟩ ⟨5, false, 0, fun _ _ _ => true⟩).2 10 13 16 19 24 5 3
      (by decide) (by decide) (by decide) (by decide) (by decide) (by decide)
      (by decide) (by decide) (by decide) (by decide) (by decide) (by decide) (by decide)⟩

end TSKID
